import Mathlib

/-! # CommittedMemoryQueryWin: memory accounting of `Program.cpp`

A shallow embedding of the accounting functions of `Program.cpp` and the
properties proved of them.

Conventions of the embedding
* `std::uint64_t`, `SIZE_T` and `DWORD` values are natural numbers; every
  C++ addition on them is written with an explicit `% 2 ^ 64`.
* The Win32 calls the program makes are the fields of `WinApi`.  A record
  of that type is one snapshot of the operating system: the same call with
  the same arguments gives the same answer.
* The two `for` loops over the address space and the page loop inside the
  second one need not terminate for an arbitrary answer of the operating
  system, so they take a `fuel` argument that bounds the number of times
  the loop condition is evaluated; `none` means the fuel ran out.
* A thrown `std::runtime_error` carrying `GetLastError()` is
  `Except.error errorCode`.
-/

namespace CommittedMemoryQueryWin

/-! ## Win32 data -/

/-- Value of `MEM_COMMIT` in `winnt.h`. -/
def MEM_COMMIT : Nat := 0x1000

/-- Value of `MEM_RESERVE` in `winnt.h`. -/
def MEM_RESERVE : Nat := 0x2000

/-- Value of `MEM_FREE` in `winnt.h`. -/
def MEM_FREE : Nat := 0x10000

/-- Value of `MEM_PRIVATE` in `winnt.h`. -/
def MEM_PRIVATE : Nat := 0x20000

/-- The fields of `MEMORY_BASIC_INFORMATION` that `Program.cpp` mentions. -/
structure MEMORY_BASIC_INFORMATION where
  BaseAddress : Nat
  RegionSize : Nat
  State : Nat
  Type_ : Nat
  deriving DecidableEq, Repr

/-- The bit fields of `PSAPI_WORKING_SET_EX_BLOCK` that `Program.cpp` reads. -/
structure PSAPI_WORKING_SET_EX_BLOCK where
  Valid : Bool
  ShareCount : Nat
  Shared : Bool
  deriving DecidableEq, Repr

/-- One entry of the buffer passed to `QueryWorkingSetEx`. -/
structure PSAPI_WORKING_SET_EX_INFORMATION where
  VirtualAddress : Nat
  VirtualAttributes : PSAPI_WORKING_SET_EX_BLOCK
  deriving DecidableEq, Repr

/-- The Win32 calls made by `Program.cpp`, as one snapshot of the system.

* `OpenProcess pid` is the handle, `0` on failure.
* `GetModuleFileNameExW h` is the path, `none` when the call returns `0`.
* `filename` is `std::filesystem::path::filename`.
* `GetProcessMemoryInfo h` is `PrivateUsage`, or `GetLastError()`.
* `VirtualQueryEx h address` is the filled structure, `none` when the call
  returns `0`.
* `QueryWorkingSetEx h buffer cb` is, on success, the attribute block
  written into the entry at each index of the buffer, or `GetLastError()`. -/
structure WinApi where
  OpenProcess : Nat → Nat
  GetModuleFileNameExW : Nat → Option String
  filename : String → String
  GetProcessMemoryInfo : Nat → Except Nat Nat
  VirtualQueryEx : Nat → Nat → Option MEMORY_BASIC_INFORMATION
  QueryWorkingSetEx : Nat → List PSAPI_WORKING_SET_EX_INFORMATION → Nat →
    Except Nat (Nat → PSAPI_WORKING_SET_EX_BLOCK)

/-! ## `GetMiB` -/

/-- `GetMiB`: `(size + 1024 * 1024 - 1) / (1024 * 1024)` on `std::uint64_t`. -/
def GetMiB (size : Nat) : Nat :=
  (((size + 1024 * 1024) % 2 ^ 64 + 2 ^ 64 - 1) % 2 ^ 64) / (1024 * 1024)

/-! ## Rows and their order -/

/-- `struct ProcessQueryResult`. -/
structure ProcessQueryResult where
  pid : Nat
  PrivateUsage : Nat
  CommittedMemorySize : Nat
  CommittedMemorySizePrivate : Nat
  CommittedMemorySizeShared : Nat
  ProcessName : String
  deriving DecidableEq, Repr

/-- `struct ProcessQueryResultPair`. -/
structure ProcessQueryResultPair where
  pid : Nat
  Result : Option ProcessQueryResult
  deriving DecidableEq, Repr

/-- The comparator lambda handed to `std::ranges::sort` in `PrintQueryResult`. -/
def pairLess (lhs rhs : ProcessQueryResultPair) : Bool :=
  match lhs.Result, rhs.Result with
  | some lv, some rv =>
    if lv.PrivateUsage > rv.PrivateUsage then true
    else if lv.PrivateUsage < rv.PrivateUsage then false
    else decide (lhs.pid < rhs.pid)
  | some _, none => true
  | none, some _ => false
  | none, none => decide (lhs.pid < rhs.pid)

/-- The order `std::ranges::sort` establishes: `rhs` is not less than `lhs`. -/
def pairNotAfter (lhs rhs : ProcessQueryResultPair) : Prop :=
  pairLess rhs lhs = false

instance pairNotAfter.decidable : DecidableRel pairNotAfter :=
  fun lhs rhs => inferInstanceAs (Decidable (pairLess rhs lhs = false))

/-- The call `std::ranges::sort(pairs, pairLess)`.  The standard fixes the
result only up to the order of equivalent elements: a permutation of the
input in which no later element is less than an earlier one.  Insertion
sort by the comparator is the executable representative used here. -/
def sortPairs (pairs : List ProcessQueryResultPair) : List ProcessQueryResultPair :=
  pairs.insertionSort pairNotAfter

/-- What the comparator reads of a pair: the pid and, when there is a report,
its `PrivateUsage`. -/
def rowKey (pair : ProcessQueryResultPair) : Nat × Option Nat :=
  (pair.pid, pair.Result.map (fun r => r.PrivateUsage))

/-- The comparator of `PrintQueryResult` on the keys of two pairs. -/
def keyLess (lhs rhs : Nat × Option Nat) : Bool :=
  match lhs.2, rhs.2 with
  | some lv, some rv =>
    if lv > rv then true
    else if lv < rv then false
    else decide (lhs.1 < rhs.1)
  | some _, none => true
  | none, some _ => false
  | none, none => decide (lhs.1 < rhs.1)

/-! ## Page classification of `GetProcessCommittedMemorySizeShared` -/

/-- `PageSize` of `GetProcessCommittedMemorySizeShared`. -/
def PageSize : Nat := 4096

/-- Body of the loop `for (auto i : WorkingSetExInformationList)`; the state is
`(PrivateCommittedSize, SharedCommittedSize)`. -/
def accountPage (totals : Nat × Nat) (i : PSAPI_WORKING_SET_EX_INFORMATION) : Nat × Nat :=
  if i.VirtualAttributes.Valid then
    if i.VirtualAttributes.Shared && decide (i.VirtualAttributes.ShareCount > 0) then
      (totals.1, (totals.2 + PageSize) % 2 ^ 64)
    else
      ((totals.1 + PageSize) % 2 ^ 64, totals.2)
  else
    if i.VirtualAttributes.Shared then
      (totals.1, (totals.2 + PageSize) % 2 ^ 64)
    else
      ((totals.1 + PageSize) % 2 ^ 64, totals.2)

/-! ## The address-space walks -/

/-- `GetProcessPrivateUsage`. -/
def GetProcessPrivateUsage (os : WinApi) (hProcess : Nat) : Except Nat Nat :=
  os.GetProcessMemoryInfo hProcess

/-- `GetProcessProgramPath`. -/
def GetProcessProgramPath (os : WinApi) (hProcess : Nat) : Option String :=
  os.GetModuleFileNameExW hProcess

/-- The `for` loop of `GetProcessCommittedMemorySize`, entered at its condition
with the current `address` and `committedSize`. -/
def committedSizeLoop (os : WinApi) (hProcess : Nat) : Nat → Nat → Nat → Option Nat
  | 0, _, _ => none
  | fuel + 1, address, committedSize =>
    if address < 0x800000000000 then
      match os.VirtualQueryEx hProcess address with
      | none => some committedSize
      | some info =>
        if info.State = MEM_COMMIT then
          committedSizeLoop os hProcess fuel ((address + info.RegionSize) % 2 ^ 64)
            ((committedSize + info.RegionSize) % 2 ^ 64)
        else
          committedSizeLoop os hProcess fuel ((address + info.RegionSize) % 2 ^ 64)
            committedSize
    else
      some committedSize

/-- `GetProcessCommittedMemorySize`. -/
def GetProcessCommittedMemorySize (os : WinApi) (hProcess : Nat) (fuel : Nat) : Option Nat :=
  committedSizeLoop os hProcess fuel 0 0

/-- The inner loop `for (auto a = address; a < address + info.RegionSize; a += PageSize)`
of `GetProcessCommittedMemorySizeShared`, entered at its condition; `stop` is the
value of `address + info.RegionSize`. -/
def pageLoop : Nat → Nat → Nat → List PSAPI_WORKING_SET_EX_INFORMATION →
    Option (List PSAPI_WORKING_SET_EX_INFORMATION)
  | 0, _, _, _ => none
  | fuel + 1, a, stop, WorkingSetExInformationList =>
    if a < stop then
      pageLoop fuel ((a + PageSize) % 2 ^ 64) stop
        (WorkingSetExInformationList ++ [⟨a, ⟨false, 0, false⟩⟩])
    else
      some WorkingSetExInformationList

/-- The outer `for` loop of `GetProcessCommittedMemorySizeShared`, entered at its
condition; the result is `(PrivateCommittedSize, WorkingSetExInformationList)`.
Every run of the inner loop gets `pageFuel`. -/
def sharedSizeLoop (os : WinApi) (hProcess : Nat) (pageFuel : Nat) :
    Nat → Nat → Nat → List PSAPI_WORKING_SET_EX_INFORMATION →
    Option (Nat × List PSAPI_WORKING_SET_EX_INFORMATION)
  | 0, _, _, _ => none
  | fuel + 1, address, PrivateCommittedSize, WorkingSetExInformationList =>
    if address < 0x800000000000 then
      match os.VirtualQueryEx hProcess address with
      | none => some (PrivateCommittedSize, WorkingSetExInformationList)
      | some info =>
        if info.State = MEM_COMMIT then
          if info.Type_ = MEM_PRIVATE then
            sharedSizeLoop os hProcess pageFuel fuel ((address + info.RegionSize) % 2 ^ 64)
              ((PrivateCommittedSize + info.RegionSize) % 2 ^ 64) WorkingSetExInformationList
          else
            match pageLoop pageFuel address ((address + info.RegionSize) % 2 ^ 64)
                WorkingSetExInformationList with
            | none => none
            | some list =>
              sharedSizeLoop os hProcess pageFuel fuel ((address + info.RegionSize) % 2 ^ 64)
                PrivateCommittedSize list
        else
          sharedSizeLoop os hProcess pageFuel fuel ((address + info.RegionSize) % 2 ^ 64)
            PrivateCommittedSize WorkingSetExInformationList
    else
      some (PrivateCommittedSize, WorkingSetExInformationList)

/-- The buffer after a successful `QueryWorkingSetEx`: the entry at index
`k + j` carries the attribute block `attributes (k + j)`, the addresses are
unchanged. -/
def fillAttributes (attributes : Nat → PSAPI_WORKING_SET_EX_BLOCK) :
    Nat → List PSAPI_WORKING_SET_EX_INFORMATION → List PSAPI_WORKING_SET_EX_INFORMATION
  | _, [] => []
  | k, i :: rest => ⟨i.VirtualAddress, attributes k⟩ :: fillAttributes attributes (k + 1) rest

/-- The `cb` argument of the `QueryWorkingSetEx` call:
`static_cast<DWORD>(size() * sizeof(PSAPI_WORKING_SET_EX_INFORMATION))`, the
entry being 16 bytes. -/
def bufferBytes (WorkingSetExInformationList : List PSAPI_WORKING_SET_EX_INFORMATION) : Nat :=
  (WorkingSetExInformationList.length * 16 % 2 ^ 64) % 2 ^ 32

/-- `GetProcessCommittedMemorySizeShared`; the result is
`(PrivateCommittedSize, SharedCommittedSize)`.  The outer loop and every run of
the inner loop are given `fuel` each. -/
def GetProcessCommittedMemorySizeShared (os : WinApi) (hProcess : Nat) (fuel : Nat) :
    Option (Except Nat (Nat × Nat)) :=
  match sharedSizeLoop os hProcess fuel fuel 0 0 [] with
  | none => none
  | some (PrivateCommittedSize, WorkingSetExInformationList) =>
    match os.QueryWorkingSetEx hProcess WorkingSetExInformationList
        (bufferBytes WorkingSetExInformationList) with
    | .error errorCode => some (.error errorCode)
    | .ok attributes =>
      some (.ok ((fillAttributes attributes 0 WorkingSetExInformationList).foldl accountPage
        (PrivateCommittedSize, 0)))

/-! ## The sweep over the processes -/

/-- `QueryProcess`.  `CloseHandle` has no effect on the snapshot. -/
def QueryProcess (os : WinApi) (fuel : Nat) (pid : Nat) :
    Option (Except Nat (Option ProcessQueryResult)) :=
  let hProcess := os.OpenProcess pid
  if hProcess = 0 then some (.ok none)
  else
    match GetProcessProgramPath os hProcess with
    | none => some (.ok none)
    | some FilePath =>
      match GetProcessPrivateUsage os hProcess with
      | .error errorCode => some (.error errorCode)
      | .ok PrivateUsage =>
        match GetProcessCommittedMemorySize os hProcess fuel with
        | none => none
        | some CommittedMemorySize =>
          match GetProcessCommittedMemorySizeShared os hProcess fuel with
          | none => none
          | some (.error errorCode) => some (.error errorCode)
          | some (.ok (CommittedMemorySizePrivate, CommittedMemorySizeShared)) =>
            some (.ok (some ⟨pid, PrivateUsage, CommittedMemorySize,
              CommittedMemorySizePrivate, CommittedMemorySizeShared, os.filename FilePath⟩))

/-- The line `auto pairs = to_vector(pids | std::views::transform(...))` of
`PrintQueryResult`: `QueryProcess` is called on the pids in order, and an
exception leaving one call leaves the whole statement. -/
def queryPairs (os : WinApi) (fuel : Nat) :
    List Nat → Option (Except Nat (List ProcessQueryResultPair))
  | [] => some (.ok [])
  | pid :: pids =>
    match QueryProcess os fuel pid with
    | none => none
    | some (.error errorCode) => some (.error errorCode)
    | some (.ok Result) =>
      match queryPairs os fuel pids with
      | none => none
      | some (.error errorCode) => some (.error errorCode)
      | some (.ok pairs) => some (.ok (⟨pid, Result⟩ :: pairs))

/-- `PrintQueryResult` up to and including the sort, for the pids returned by
`GetProcessIds`: the rows in the order in which they are printed. -/
def PrintQueryResult_pairs (os : WinApi) (fuel : Nat) (pids : List Nat) :
    Option (Except Nat (List ProcessQueryResultPair)) :=
  match queryPairs os fuel pids with
  | none => none
  | some (.error errorCode) => some (.error errorCode)
  | some (.ok pairs) => some (.ok (sortPairs pairs))

/-! ## Specification-side vocabulary -/

/-- The visited regions of a walk that is at `address`: the answers to the
region queries at `address` and then at each previous cursor plus the previous
region's size (in 64-bit arithmetic), each paired with the cursor at which it
was obtained, up to the first failed query or the first cursor that is not
below `0x800000000000`.  The cursor is the base address the program uses for
the region; the `BaseAddress` field of the answer is never read. -/
def VisitedFrom (os : WinApi) (hProcess : Nat) :
    Nat → List (Nat × MEMORY_BASIC_INFORMATION) → Prop
  | address, [] =>
    ¬ address < 0x800000000000 ∨ os.VirtualQueryEx hProcess address = none
  | address, (cursor, info) :: rest =>
    cursor = address ∧ address < 0x800000000000 ∧
      os.VirtualQueryEx hProcess address = some info ∧
      VisitedFrom os hProcess ((address + info.RegionSize) % 2 ^ 64) rest

/-- Every answered region is non-empty and ends below `2 ^ 64`, so the cursor
of a walk strictly advances. -/
def CursorAdvances (os : WinApi) (hProcess : Nat) : Prop :=
  ∀ address info, address < 0x800000000000 →
    os.VirtualQueryEx hProcess address = some info →
    0 < info.RegionSize ∧ address + info.RegionSize < 2 ^ 64

/-- Number of 4096-byte pages needed to cover `size` bytes: `ceil (size / 4096)`. -/
def pageCount (size : Nat) : Nat := (size + 4095) / 4096

/-- No address computation of `GetProcessCommittedMemorySizeShared` overflows on
the sequence: `address + info.RegionSize` stays below `2 ^ 64` for every region,
and for a region whose pages are collected so does every `a += PageSize`, the
last of which gives `address + 4096 * ceil (RegionSize / 4096)`. -/
def NoAddressOverflow (vs : List (Nat × MEMORY_BASIC_INFORMATION)) : Prop :=
  ∀ x ∈ vs, x.1 + x.2.RegionSize < 2 ^ 64 ∧
    (x.2.State = MEM_COMMIT → x.2.Type_ ≠ MEM_PRIVATE →
      x.1 + 4096 * pageCount x.2.RegionSize < 2 ^ 64)

/-- The fuel exceeds the number of regions of the sequence and the number of
pages of each of them. -/
def EnoughFuel (vs : List (Nat × MEMORY_BASIC_INFORMATION)) (fuel : Nat) : Prop :=
  vs.length < fuel ∧ ∀ x ∈ vs, pageCount x.2.RegionSize < fuel

/-- Sum of the sizes of the regions whose state is `MEM_COMMIT`. -/
def committedBytes (vs : List (Nat × MEMORY_BASIC_INFORMATION)) : Nat :=
  ((vs.filter (fun x => x.2.State = MEM_COMMIT)).map (fun x => x.2.RegionSize)).sum

/-- Sum of the sizes of the regions whose state is `MEM_COMMIT` and whose type
is `MEM_PRIVATE`. -/
def privateRegionBytes (vs : List (Nat × MEMORY_BASIC_INFORMATION)) : Nat :=
  ((vs.filter (fun x => x.2.State = MEM_COMMIT ∧ x.2.Type_ = MEM_PRIVATE)).map
    (fun x => x.2.RegionSize)).sum

/-- The page addresses `cursor, cursor + 4096, ...` below `cursor + size`. -/
def pagesOf (cursor size : Nat) : List Nat :=
  (List.range (pageCount size)).map (fun k => cursor + 4096 * k)

/-- The page addresses of the regions whose state is `MEM_COMMIT` and whose
type is not `MEM_PRIVATE`, in the order of the walk. -/
def candidatePages : List (Nat × MEMORY_BASIC_INFORMATION) → List Nat
  | [] => []
  | (cursor, info) :: rest =>
    if info.State = MEM_COMMIT ∧ info.Type_ ≠ MEM_PRIVATE then
      pagesOf cursor info.RegionSize ++ candidatePages rest
    else
      candidatePages rest

/-- Total number of pages of the regions whose state is `MEM_COMMIT` and whose
type is not `MEM_PRIVATE`: the sum of `ceil (size / 4096)` over them. -/
def sharedCapablePages (vs : List (Nat × MEMORY_BASIC_INFORMATION)) : Nat :=
  ((vs.filter (fun x => x.2.State = MEM_COMMIT ∧ x.2.Type_ ≠ MEM_PRIVATE)).map
    (fun x => pageCount x.2.RegionSize)).sum

/-- The zero-initialised buffer entries for a list of page addresses. -/
def newEntries (pages : List Nat) : List PSAPI_WORKING_SET_EX_INFORMATION :=
  pages.map (fun a => ⟨a, ⟨false, 0, false⟩⟩)

/-- The classification rule of the specification: a page counts as shared iff
(valid and shared and share count positive) or (not valid and shared). -/
def classifiedShared (i : PSAPI_WORKING_SET_EX_INFORMATION) : Bool :=
  (i.VirtualAttributes.Valid && i.VirtualAttributes.Shared &&
      decide (i.VirtualAttributes.ShareCount > 0)) ||
    (!i.VirtualAttributes.Valid && i.VirtualAttributes.Shared)

instance VisitedFrom.instDecidable (os : WinApi) (hProcess : Nat) :
    (address : Nat) → (vs : List (Nat × MEMORY_BASIC_INFORMATION)) →
      Decidable (VisitedFrom os hProcess address vs)
  | address, [] =>
    inferInstanceAs (Decidable
      (¬ address < 0x800000000000 ∨ os.VirtualQueryEx hProcess address = none))
  | address, (cursor, info) :: rest =>
    have := VisitedFrom.instDecidable os hProcess ((address + info.RegionSize) % 2 ^ 64) rest
    inferInstanceAs (Decidable
      (cursor = address ∧ address < 0x800000000000 ∧
        os.VirtualQueryEx hProcess address = some info ∧
        VisitedFrom os hProcess ((address + info.RegionSize) % 2 ^ 64) rest))

/-! ## Concrete systems used as examples -/

/-- A system with one process (pid 4, handle 104) of four regions: 64 KiB free,
three committed private pages, two committed mapped pages (type `MEM_MAPPED`,
`0x40000`), one reserved page; the query after them fails.  The first mapped
page is shared, the second is not.  Pid 8 (handle 108) exists but its
`GetProcessMemoryInfo` fails with error 5. -/
def sampleApi : WinApi where
  OpenProcess := fun pid => pid + 100
  GetModuleFileNameExW := fun _ => some "C:/bin/app.exe"
  filename := fun _ => "app.exe"
  GetProcessMemoryInfo := fun hProcess => if hProcess = 108 then .error 5 else .ok 12288
  VirtualQueryEx := fun _ address =>
    if address = 0 then some ⟨0, 0x10000, MEM_FREE, 0⟩
    else if address = 0x10000 then some ⟨0x10000, 0x3000, MEM_COMMIT, MEM_PRIVATE⟩
    else if address = 0x13000 then some ⟨0x13000, 0x2000, MEM_COMMIT, 0x40000⟩
    else if address = 0x15000 then some ⟨0x15000, 0x1000, MEM_RESERVE, MEM_PRIVATE⟩
    else none
  QueryWorkingSetEx := fun _ _ _ =>
    .ok (fun k => if k = 0 then ⟨true, 2, true⟩ else ⟨true, 0, true⟩)

/-- The system `sampleApi` with a private-usage query that always succeeds and
a page-share query that fails with error 87 on exactly one call: the buffer of
the two mapped pages `0x13000` and `0x14000` with `cb = 32`, which is the call
the program makes. -/
def pageQueryFailsApi : WinApi where
  OpenProcess := fun pid => pid + 100
  GetModuleFileNameExW := fun _ => some "C:/bin/app.exe"
  filename := fun _ => "app.exe"
  GetProcessMemoryInfo := fun _ => .ok 12288
  VirtualQueryEx := fun _ address =>
    if address = 0 then some ⟨0, 0x10000, MEM_FREE, 0⟩
    else if address = 0x10000 then some ⟨0x10000, 0x3000, MEM_COMMIT, MEM_PRIVATE⟩
    else if address = 0x13000 then some ⟨0x13000, 0x2000, MEM_COMMIT, 0x40000⟩
    else if address = 0x15000 then some ⟨0x15000, 0x1000, MEM_RESERVE, MEM_PRIVATE⟩
    else none
  QueryWorkingSetEx := fun _ buffer cb =>
    if buffer = [⟨0x13000, ⟨false, 0, false⟩⟩, ⟨0x14000, ⟨false, 0, false⟩⟩] ∧ cb = 32 then
      .error 87
    else .ok (fun _ => ⟨false, 0, false⟩)

/-- The visited regions of a walk over a process of `sampleApi`. -/
def sampleRegions : List (Nat × MEMORY_BASIC_INFORMATION) :=
  [(0, ⟨0, 0x10000, MEM_FREE, 0⟩), (0x10000, ⟨0x10000, 0x3000, MEM_COMMIT, MEM_PRIVATE⟩),
    (0x13000, ⟨0x13000, 0x2000, MEM_COMMIT, 0x40000⟩),
    (0x15000, ⟨0x15000, 0x1000, MEM_RESERVE, MEM_PRIVATE⟩)]

/-- A system whose region query answers a free region of 64 KiB at address 0
and a committed region of size 0 everywhere else. -/
def stuckApi : WinApi where
  OpenProcess := fun pid => pid + 100
  GetModuleFileNameExW := fun _ => some "C:/bin/app.exe"
  filename := fun _ => "app.exe"
  GetProcessMemoryInfo := fun _ => .ok 12288
  VirtualQueryEx := fun _ address =>
    if address = 0 then some ⟨0, 0x10000, MEM_FREE, 0⟩
    else some ⟨address, 0, MEM_COMMIT, MEM_PRIVATE⟩
  QueryWorkingSetEx := fun _ _ _ => .ok (fun _ => ⟨false, 0, false⟩)

/-- A system whose region query answers a free region of size 0 at every address. -/
def emptyRegionApi : WinApi where
  OpenProcess := fun pid => pid + 100
  GetModuleFileNameExW := fun _ => some "C:/bin/app.exe"
  filename := fun _ => "app.exe"
  GetProcessMemoryInfo := fun _ => .ok 12288
  VirtualQueryEx := fun _ _ => some ⟨0, 0, MEM_FREE, 0⟩
  QueryWorkingSetEx := fun _ _ _ => .ok (fun _ => ⟨false, 0, false⟩)

/-- A system whose region query fails at every address, also at address 0. -/
def goneApi : WinApi where
  OpenProcess := fun pid => pid + 100
  GetModuleFileNameExW := fun _ => some "C:/bin/app.exe"
  filename := fun _ => "app.exe"
  GetProcessMemoryInfo := fun _ => .ok 12288
  VirtualQueryEx := fun _ _ => none
  QueryWorkingSetEx := fun _ _ _ => .ok (fun _ => ⟨false, 0, false⟩)

/-- A system with two committed private regions, of 4096 bytes at address 0 and
of `2 ^ 64 - 1` bytes at address 4096; the query at 4095 fails. -/
def hugeRegionApi : WinApi where
  OpenProcess := fun pid => pid + 100
  GetModuleFileNameExW := fun _ => some "C:/bin/app.exe"
  filename := fun _ => "app.exe"
  GetProcessMemoryInfo := fun _ => .ok 12288
  VirtualQueryEx := fun _ address =>
    if address = 0 then some ⟨0, 4096, MEM_COMMIT, MEM_PRIVATE⟩
    else if address = 4096 then some ⟨4096, 2 ^ 64 - 1, MEM_COMMIT, MEM_PRIVATE⟩
    else none
  QueryWorkingSetEx := fun _ _ _ => .ok (fun _ => ⟨false, 0, false⟩)

/-- A system with a committed mapped region of 8192 bytes at address 0 and a
committed private region of `2 ^ 64 - 4096` bytes at address 8192, after which
the cursor has wrapped around `2 ^ 64` to 4096, where the query fails. -/
def wrappingApi : WinApi where
  OpenProcess := fun pid => pid + 100
  GetModuleFileNameExW := fun _ => some "C:/bin/app.exe"
  filename := fun _ => "app.exe"
  GetProcessMemoryInfo := fun _ => .ok 12288
  VirtualQueryEx := fun _ address =>
    if address = 0 then some ⟨0, 8192, MEM_COMMIT, 0x40000⟩
    else if address = 8192 then some ⟨8192, 2 ^ 64 - 4096, MEM_COMMIT, MEM_PRIVATE⟩
    else none
  QueryWorkingSetEx := fun _ _ _ => .ok (fun _ => ⟨false, 0, false⟩)

/-- The visited regions of a walk over a process of `wrappingApi`. -/
def wrappingRegions : List (Nat × MEMORY_BASIC_INFORMATION) :=
  [(0, ⟨0, 8192, MEM_COMMIT, 0x40000⟩), (8192, ⟨8192, 2 ^ 64 - 4096, MEM_COMMIT, MEM_PRIVATE⟩)]

/-- A system with two committed mapped regions of 100 bytes each, at addresses
0 and 100; the query at 200 fails. -/
def unalignedApi : WinApi where
  OpenProcess := fun pid => pid + 100
  GetModuleFileNameExW := fun _ => some "C:/bin/app.exe"
  filename := fun _ => "app.exe"
  GetProcessMemoryInfo := fun _ => .ok 12288
  VirtualQueryEx := fun _ address =>
    if address = 0 then some ⟨0, 100, MEM_COMMIT, 0x40000⟩
    else if address = 100 then some ⟨100, 100, MEM_COMMIT, 0x40000⟩
    else none
  QueryWorkingSetEx := fun _ _ _ => .ok (fun _ => ⟨false, 0, false⟩)

/-! ## Theorems -/

/-! ## Lemmas on the walks -/

theorem VisitedFrom_mem {os : WinApi} {hProcess : Nat} :
    ∀ {vs : List (Nat × MEMORY_BASIC_INFORMATION)} {address : Nat},
      VisitedFrom os hProcess address vs →
      ∀ x ∈ vs, x.1 < 0x800000000000 ∧ os.VirtualQueryEx hProcess x.1 = some x.2
  | [], _, _, x, hx => by simp at hx
  | (cursor, info) :: rest, address, hv, x, hx => by
    obtain ⟨hc, hlt, hq, hrest⟩ := hv
    rcases List.mem_cons.1 hx with rfl | hx
    · subst hc
      exact ⟨hlt, hq⟩
    · exact VisitedFrom_mem hrest x hx

theorem committedBytes_cons (x : Nat × MEMORY_BASIC_INFORMATION)
    (vs : List (Nat × MEMORY_BASIC_INFORMATION)) :
    committedBytes (x :: vs) =
      (if x.2.State = MEM_COMMIT then x.2.RegionSize else 0) + committedBytes vs := by
  unfold committedBytes
  by_cases h : x.2.State = MEM_COMMIT <;> simp [List.filter_cons, h]

theorem committedSizeLoop_eq {os : WinApi} {hProcess : Nat} :
    ∀ {vs : List (Nat × MEMORY_BASIC_INFORMATION)} {address : Nat},
      VisitedFrom os hProcess address vs →
      ∀ (fuel committedSize : Nat), vs.length < fuel → committedSize < 2 ^ 64 →
        committedSizeLoop os hProcess fuel address committedSize =
          some ((committedSize + committedBytes vs) % 2 ^ 64)
  | [], address, hv, fuel, committedSize, hf, hc => by
    obtain ⟨fuel, rfl⟩ : ∃ n, fuel = n + 1 := ⟨fuel - 1, by simp at hf; omega⟩
    have hmod : (committedSize + committedBytes []) % 2 ^ 64 = committedSize := by
      simp [committedBytes]; omega
    rw [hmod]
    unfold committedSizeLoop
    rcases hv with hv | hv
    · rw [if_neg hv]
    · rw [hv]; split <;> rfl
  | (cursor, info) :: rest, address, hv, fuel, committedSize, hf, hc => by
    obtain ⟨fuel, rfl⟩ : ∃ n, fuel = n + 1 := ⟨fuel - 1, by simp at hf; omega⟩
    obtain ⟨-, hlt, hq, hrest⟩ := hv
    have hf' : rest.length < fuel := by simp at hf; omega
    unfold committedSizeLoop
    rw [if_pos hlt, hq]
    simp only
    rw [committedBytes_cons]
    by_cases hs : info.State = MEM_COMMIT
    · rw [if_pos hs, committedSizeLoop_eq hrest fuel _ hf' (Nat.mod_lt _ (by norm_num))]
      simp only [hs, if_true]
      congr 1
      omega
    · rw [if_neg hs, committedSizeLoop_eq hrest fuel _ hf' hc]
      simp only [hs, if_false]
      congr 1
      omega


theorem VisitedFrom_exists {os : WinApi} {hProcess : Nat}
    (hq : CursorAdvances os hProcess) :
    ∀ (n address : Nat), 0x800000000000 ≤ address + n →
      ∃ vs, VisitedFrom os hProcess address vs ∧ vs.length ≤ n
  | 0, address, h => ⟨[], Or.inl (by omega), by simp⟩
  | n + 1, address, h => by
    by_cases hlt : address < 0x800000000000
    · cases hqa : os.VirtualQueryEx hProcess address with
      | none => exact ⟨[], Or.inr hqa, by simp⟩
      | some info =>
        obtain ⟨hpos, hfit⟩ := hq address info hlt hqa
        have hnext : (address + info.RegionSize) % 2 ^ 64 = address + info.RegionSize :=
          Nat.mod_eq_of_lt hfit
        obtain ⟨rest, hrest, hlen⟩ :=
          VisitedFrom_exists hq n ((address + info.RegionSize) % 2 ^ 64) (by omega)
        exact ⟨(address, info) :: rest, ⟨rfl, hlt, hqa, hrest⟩, by simp; omega⟩
    · exact ⟨[], Or.inl hlt, by simp⟩

theorem pagesOf_zero (a : Nat) : pagesOf a 0 = [] := by
  simp [pagesOf, pageCount]

theorem pagesOf_step (a size : Nat) (h : 0 < size) :
    pagesOf a size = a :: pagesOf (a + 4096) (size - 4096) := by
  unfold pagesOf pageCount
  have hc : (size + 4095) / 4096 = (size - 4096 + 4095) / 4096 + 1 := by omega
  rw [hc, List.range_succ_eq_map, List.map_cons, List.map_map]
  simp only [Nat.mul_zero, Nat.add_zero, List.cons.injEq, true_and]
  apply List.map_congr_left
  intro k _
  simp only [Function.comp, Nat.succ_eq_add_one]
  omega

theorem pageLoop_eq :
    ∀ (n fuel a stop : Nat) (l : List PSAPI_WORKING_SET_EX_INFORMATION),
      stop ≤ a + 4096 * n → n < fuel → a + 4096 * pageCount (stop - a) < 2 ^ 64 →
      pageLoop fuel a stop l = some (l ++ newEntries (pagesOf a (stop - a)))
  | 0, fuel, a, stop, l, h, hf, _ => by
    obtain ⟨fuel, rfl⟩ : ∃ m, fuel = m + 1 := ⟨fuel - 1, by omega⟩
    unfold pageLoop
    rw [if_neg (by omega), show stop - a = 0 by omega, pagesOf_zero]
    simp [newEntries]
  | n + 1, fuel, a, stop, l, h, hf, hs => by
    obtain ⟨fuel, rfl⟩ : ∃ m, fuel = m + 1 := ⟨fuel - 1, by omega⟩
    unfold pageLoop
    by_cases hlt : a < stop
    · have hcount : pageCount (stop - a) = pageCount (stop - (a + 4096)) + 1 := by
        unfold pageCount
        omega
      have hnext : (a + PageSize) % 2 ^ 64 = a + 4096 := by
        unfold PageSize
        omega
      rw [if_pos hlt, hnext, pageLoop_eq n fuel (a + 4096) stop _ (by omega) (by omega)
          (by omega),
        pagesOf_step a (stop - a) (by omega), show stop - a - 4096 = stop - (a + 4096) by omega]
      simp [newEntries]
    · rw [if_neg hlt, show stop - a = 0 by omega, pagesOf_zero]
      simp [newEntries]

theorem privateRegionBytes_cons (x : Nat × MEMORY_BASIC_INFORMATION)
    (vs : List (Nat × MEMORY_BASIC_INFORMATION)) :
    privateRegionBytes (x :: vs) =
      (if x.2.State = MEM_COMMIT ∧ x.2.Type_ = MEM_PRIVATE then x.2.RegionSize else 0) +
        privateRegionBytes vs := by
  unfold privateRegionBytes
  by_cases h : x.2.State = MEM_COMMIT ∧ x.2.Type_ = MEM_PRIVATE <;> simp [List.filter_cons, h]

theorem sharedCapablePages_cons (x : Nat × MEMORY_BASIC_INFORMATION)
    (vs : List (Nat × MEMORY_BASIC_INFORMATION)) :
    sharedCapablePages (x :: vs) =
      (if x.2.State = MEM_COMMIT ∧ x.2.Type_ ≠ MEM_PRIVATE then pageCount x.2.RegionSize
        else 0) + sharedCapablePages vs := by
  unfold sharedCapablePages
  by_cases h : x.2.State = MEM_COMMIT ∧ x.2.Type_ ≠ MEM_PRIVATE <;> simp [List.filter_cons, h]

theorem sharedSizeLoop_eq {os : WinApi} {hProcess : Nat} (pageFuel : Nat) :
    ∀ {vs : List (Nat × MEMORY_BASIC_INFORMATION)} {address : Nat},
      VisitedFrom os hProcess address vs → NoAddressOverflow vs →
      (∀ x ∈ vs, pageCount x.2.RegionSize < pageFuel) →
      ∀ (fuel PrivateCommittedSize : Nat) (l : List PSAPI_WORKING_SET_EX_INFORMATION),
        vs.length < fuel → PrivateCommittedSize < 2 ^ 64 →
        sharedSizeLoop os hProcess pageFuel fuel address PrivateCommittedSize l =
          some ((PrivateCommittedSize + privateRegionBytes vs) % 2 ^ 64,
            l ++ newEntries (candidatePages vs))
  | [], address, hv, _, _, fuel, priv, l, hf, hc => by
    obtain ⟨fuel, rfl⟩ : ∃ n, fuel = n + 1 := ⟨fuel - 1, by simp at hf; omega⟩
    have hmod : (priv + privateRegionBytes []) % 2 ^ 64 = priv := by
      simp [privateRegionBytes]; omega
    rw [hmod]
    unfold sharedSizeLoop
    rcases hv with hv | hv
    · rw [if_neg hv]; simp [candidatePages, newEntries]
    · rw [hv]; split <;> simp [candidatePages, newEntries]
  | (cursor, info) :: rest, address, hv, hr, hp, fuel, priv, l, hf, hc => by
    obtain ⟨fuel, rfl⟩ : ∃ n, fuel = n + 1 := ⟨fuel - 1, by simp at hf; omega⟩
    obtain ⟨rfl, hlt, hq, hrest⟩ := hv
    have hf' : rest.length < fuel := by simp at hf; omega
    have hr' : NoAddressOverflow rest := fun x hx => hr x (List.mem_cons_of_mem _ hx)
    have hp' : ∀ x ∈ rest, pageCount x.2.RegionSize < pageFuel :=
      fun x hx => hp x (List.mem_cons_of_mem _ hx)
    obtain ⟨hfit, hpage⟩ := hr (cursor, info) (by simp)
    simp only at hfit hpage
    have hpf : pageCount info.RegionSize < pageFuel := hp (cursor, info) (by simp)
    have hnext : (cursor + info.RegionSize) % 2 ^ 64 = cursor + info.RegionSize := by omega
    rw [hnext] at hrest
    unfold sharedSizeLoop
    rw [if_pos hlt, hq]
    simp only [hnext]
    rw [privateRegionBytes_cons]
    by_cases hs : info.State = MEM_COMMIT
    · by_cases ht : info.Type_ = MEM_PRIVATE
      · rw [if_pos hs, if_pos ht,
          sharedSizeLoop_eq pageFuel hrest hr' hp' fuel _ l hf' (Nat.mod_lt _ (by norm_num))]
        simp only [hs, ht, and_self, if_true, candidatePages, ne_eq, not_true_eq_false,
          and_false, if_false]
        congr 2
        omega
      · rw [if_pos hs, if_neg ht,
          pageLoop_eq (pageCount info.RegionSize) pageFuel cursor (cursor + info.RegionSize) l
            (by unfold pageCount; omega) hpf
            (by rw [Nat.add_sub_cancel_left]; exact hpage hs ht)]
        simp only
        rw [sharedSizeLoop_eq pageFuel hrest hr' hp' fuel _ _ hf' hc]
        simp only [hs, ht, and_false, if_false, candidatePages, ne_eq, not_false_eq_true,
          and_self, if_true, Nat.add_sub_cancel_left, Nat.add_zero, Nat.zero_add, newEntries,
          List.map_append, List.append_assoc]
    · rw [if_neg hs, sharedSizeLoop_eq pageFuel hrest hr' hp' fuel _ l hf' hc]
      simp only [hs, false_and, if_false, candidatePages, Nat.add_zero, Nat.zero_add]

theorem accountPage_classified (totals : Nat × Nat) (i : PSAPI_WORKING_SET_EX_INFORMATION) :
    accountPage totals i =
      if classifiedShared i then (totals.1, (totals.2 + 4096) % 2 ^ 64)
      else ((totals.1 + 4096) % 2 ^ 64, totals.2) := by
  unfold accountPage classifiedShared PageSize
  cases i.VirtualAttributes.Valid <;> cases i.VirtualAttributes.Shared <;>
    by_cases h : i.VirtualAttributes.ShareCount > 0 <;> simp [h]

theorem foldl_accountPage :
    ∀ (l : List PSAPI_WORKING_SET_EX_INFORMATION) (p s : Nat), p < 2 ^ 64 → s < 2 ^ 64 →
      l.foldl accountPage (p, s) =
        ((p + 4096 * l.countP (fun i => !classifiedShared i)) % 2 ^ 64,
          (s + 4096 * l.countP classifiedShared) % 2 ^ 64)
  | [], p, s, hp, hs => by
    simp only [List.foldl_nil, List.countP_nil, Nat.mul_zero, Nat.add_zero]
    rw [Nat.mod_eq_of_lt hp, Nat.mod_eq_of_lt hs]
  | i :: l, p, s, hp, hs => by
    rw [List.foldl_cons, accountPage_classified]
    by_cases hc : classifiedShared i = true
    · rw [if_pos hc, foldl_accountPage l _ _ hp (Nat.mod_lt _ (by norm_num))]
      simp only [List.countP_cons, hc, Bool.not_true, if_true, Bool.false_eq_true, if_false,
        Nat.add_zero]
      refine Prod.ext ?_ ?_ <;> first | (simp only; omega) | simp only
    · rw [if_neg hc, foldl_accountPage l _ _ (Nat.mod_lt _ (by norm_num)) hs]
      simp only [Bool.not_eq_true] at hc
      simp only [List.countP_cons, hc, Bool.not_false, if_true, Bool.false_eq_true, if_false,
        Nat.add_zero]
      refine Prod.ext ?_ ?_ <;> first | (simp only; omega) | simp only

theorem fillAttributes_length (attributes : Nat → PSAPI_WORKING_SET_EX_BLOCK) :
    ∀ (l : List PSAPI_WORKING_SET_EX_INFORMATION) (k : Nat),
      (fillAttributes attributes k l).length = l.length
  | [], _ => rfl
  | _ :: l, k => by simp [fillAttributes, fillAttributes_length attributes l (k + 1)]

theorem countP_classified (l : List PSAPI_WORKING_SET_EX_INFORMATION) :
    l.countP (fun i => !classifiedShared i) + l.countP classifiedShared = l.length := by
  induction l with
  | nil => rfl
  | cons i l ih =>
    by_cases hc : classifiedShared i = true
    · simp only [List.countP_cons, hc, Bool.not_true, Bool.false_eq_true, if_false, if_true,
        List.length_cons]
      omega
    · simp only [Bool.not_eq_true] at hc
      simp only [List.countP_cons, hc, Bool.not_false, Bool.false_eq_true, if_false, if_true,
        List.length_cons]
      omega

theorem candidatePages_length :
    ∀ vs : List (Nat × MEMORY_BASIC_INFORMATION),
      (candidatePages vs).length = sharedCapablePages vs
  | [] => rfl
  | (cursor, info) :: rest => by
    rw [sharedCapablePages_cons]
    by_cases h : info.State = MEM_COMMIT ∧ info.Type_ ≠ MEM_PRIVATE
    · simp [candidatePages, h, pagesOf, candidatePages_length rest]
    · simp [candidatePages, h, candidatePages_length rest]

theorem GetProcessCommittedMemorySizeShared_eq {os : WinApi} {hProcess : Nat}
    {vs : List (Nat × MEMORY_BASIC_INFORMATION)} (hv : VisitedFrom os hProcess 0 vs)
    (hr : NoAddressOverflow vs) (fuel : Nat) (hf : EnoughFuel vs fuel) :
    sharedSizeLoop os hProcess fuel fuel 0 0 [] =
        some (privateRegionBytes vs % 2 ^ 64, newEntries (candidatePages vs)) ∧
      GetProcessCommittedMemorySizeShared os hProcess fuel =
        match os.QueryWorkingSetEx hProcess (newEntries (candidatePages vs))
            (bufferBytes (newEntries (candidatePages vs))) with
        | .error errorCode => some (.error errorCode)
        | .ok attributes =>
          some (.ok
            ((privateRegionBytes vs + 4096 *
                (fillAttributes attributes 0 (newEntries (candidatePages vs))).countP
                  (fun i => !classifiedShared i)) % 2 ^ 64,
              (4096 * (fillAttributes attributes 0 (newEntries (candidatePages vs))).countP
                  classifiedShared) % 2 ^ 64)) := by
  have hloop := sharedSizeLoop_eq fuel hv hr hf.2 fuel 0 [] hf.1 (by norm_num)
  simp only [Nat.zero_add, List.nil_append] at hloop
  refine ⟨hloop, ?_⟩
  unfold GetProcessCommittedMemorySizeShared
  rw [hloop]
  simp only
  cases os.QueryWorkingSetEx hProcess (newEntries (candidatePages vs))
      (bufferBytes (newEntries (candidatePages vs))) with
  | error errorCode => rfl
  | ok attributes =>
    simp only
    rw [foldl_accountPage _ _ _ (Nat.mod_lt _ (by norm_num)) (by norm_num)]
    simp only [Nat.zero_add, Nat.mod_add_mod]

theorem mem_pagesOf {a cursor size : Nat} (h : a ∈ pagesOf cursor size) :
    cursor ≤ a ∧ a < cursor + size ∧ ∃ k, a = cursor + 4096 * k := by
  unfold pagesOf pageCount at h
  obtain ⟨k, hk, rfl⟩ := List.mem_map.1 h
  rw [List.mem_range] at hk
  exact ⟨by omega, by omega, k, rfl⟩

theorem mem_candidatePages :
    ∀ {vs : List (Nat × MEMORY_BASIC_INFORMATION)} {a : Nat}, a ∈ candidatePages vs →
      ∃ x ∈ vs, x.2.State = MEM_COMMIT ∧ x.2.Type_ ≠ MEM_PRIVATE ∧
        a ∈ pagesOf x.1 x.2.RegionSize
  | [], a, h => by simp [candidatePages] at h
  | (cursor, info) :: rest, a, h => by
    unfold candidatePages at h
    by_cases hc : info.State = MEM_COMMIT ∧ info.Type_ ≠ MEM_PRIVATE
    · rw [if_pos hc] at h
      rcases List.mem_append.1 h with h | h
      · exact ⟨(cursor, info), by simp, hc.1, hc.2, h⟩
      · obtain ⟨x, hx, hx'⟩ := mem_candidatePages h
        exact ⟨x, List.mem_cons_of_mem _ hx, hx'⟩
    · rw [if_neg hc] at h
      obtain ⟨x, hx, hx'⟩ := mem_candidatePages h
      exact ⟨x, List.mem_cons_of_mem _ hx, hx'⟩

theorem VisitedFrom_sorted {os : WinApi} {hProcess : Nat} :
    ∀ {vs : List (Nat × MEMORY_BASIC_INFORMATION)} {address : Nat},
      VisitedFrom os hProcess address vs → (∀ x ∈ vs, x.1 + x.2.RegionSize < 2 ^ 64) →
      (∀ x ∈ vs, address ≤ x.1) ∧ vs.Pairwise (fun x y => x.1 + x.2.RegionSize ≤ y.1)
  | [], _, _, _ => by simp
  | (cursor, info) :: rest, address, hv, hr => by
    obtain ⟨rfl, hlt, hq, hrest⟩ := hv
    have hfit : cursor + info.RegionSize < 2 ^ 64 := hr (cursor, info) (by simp)
    rw [Nat.mod_eq_of_lt hfit] at hrest
    obtain ⟨hlow, hpair⟩ :=
      VisitedFrom_sorted hrest (fun x hx => hr x (List.mem_cons_of_mem _ hx))
    refine ⟨?_, List.pairwise_cons.2 ⟨fun y hy => hlow y hy, hpair⟩⟩
    intro x hx
    rcases List.mem_cons.1 hx with rfl | hx
    · exact Nat.le_refl _
    · have := hlow x hx
      simp only at this ⊢
      omega

theorem VisitedFrom_chain {os : WinApi} {hProcess : Nat} :
    ∀ {vs : List (Nat × MEMORY_BASIC_INFORMATION)} {address : Nat},
      VisitedFrom os hProcess address vs →
      (∀ x, vs.head? = some x → x.1 = address) ∧
        vs.Chain' (fun x y => y.1 = (x.1 + x.2.RegionSize) % 2 ^ 64)
  | [], _, _ => by simp
  | [(cursor, info)], address, hv => by
    obtain ⟨rfl, -⟩ := hv
    simp
  | (cursor, info) :: y :: rest, address, hv => by
    obtain ⟨rfl, hlt, hq, hrest⟩ := hv
    obtain ⟨hhead, hchain⟩ := VisitedFrom_chain hrest
    refine ⟨by simp, List.chain'_cons.2 ⟨hhead y rfl, hchain⟩⟩

theorem committedBytes_le :
    ∀ vs : List (Nat × MEMORY_BASIC_INFORMATION),
      committedBytes vs ≤ privateRegionBytes vs + 4096 * sharedCapablePages vs ∧
        (privateRegionBytes vs + 4096 * sharedCapablePages vs = committedBytes vs ↔
          ∀ x ∈ vs, x.2.State = MEM_COMMIT → x.2.Type_ ≠ MEM_PRIVATE → 4096 ∣ x.2.RegionSize)
  | [] => by simp [committedBytes, privateRegionBytes, sharedCapablePages]
  | (cursor, info) :: rest => by
    obtain ⟨hle, heq⟩ := committedBytes_le rest
    rw [committedBytes_cons, privateRegionBytes_cons, sharedCapablePages_cons]
    simp only [List.mem_cons, forall_eq_or_imp]
    rw [← heq]
    unfold pageCount
    by_cases hs : info.State = MEM_COMMIT <;> by_cases ht : info.Type_ = MEM_PRIVATE <;>
      simp only [hs, ht, and_self, and_false, false_and, if_true, if_false, ne_eq,
        not_true_eq_false, not_false_eq_true, true_implies, false_implies, true_and,
        and_true, IsEmpty.forall_iff] <;>
      omega

theorem GetMiB_eq (size : Nat) (h : size ≤ 2 ^ 64 - 1024 * 1024) :
    GetMiB size = (size + 1048575) / 1048576 := by
  unfold GetMiB
  omega

theorem pairNotAfter_total (a b : ProcessQueryResultPair) :
    pairNotAfter a b ∨ pairNotAfter b a := by
  unfold pairNotAfter pairLess
  rcases a with ⟨pa, _ | ra⟩ <;> rcases b with ⟨pb, _ | rb⟩ <;> simp <;> omega

theorem pairNotAfter_trans (a b c : ProcessQueryResultPair) :
    pairNotAfter a b → pairNotAfter b c → pairNotAfter a c := by
  unfold pairNotAfter pairLess
  rcases a with ⟨pa, _ | ra⟩ <;> rcases b with ⟨pb, _ | rb⟩ <;> rcases c with ⟨pc, _ | rc⟩ <;>
    simp <;> omega

/-- What `pairNotAfter lhs rhs` says in the words of the specification. -/
theorem pairNotAfter_order {lhs rhs : ProcessQueryResultPair} (h : pairNotAfter lhs rhs) :
    (rhs.Result.isSome = true → lhs.Result.isSome = true) ∧
      (∀ lv rv, lhs.Result = some lv → rhs.Result = some rv →
        rv.PrivateUsage ≤ lv.PrivateUsage ∧
          (lv.PrivateUsage = rv.PrivateUsage → lhs.pid ≤ rhs.pid)) ∧
      (lhs.Result = none → rhs.Result = none → lhs.pid ≤ rhs.pid) := by
  unfold pairNotAfter pairLess at h
  rcases lhs with ⟨pl, _ | lv⟩ <;> rcases rhs with ⟨pr, _ | rv⟩ <;> simp at h ⊢
  · exact h
  · constructor
    · by_contra hlt
      have := h.1
      omega
    · intro heq
      exact h.2 (by omega)

theorem pairLess_eq_keyLess (lhs rhs : ProcessQueryResultPair) :
    pairLess lhs rhs = keyLess (rowKey lhs) (rowKey rhs) := by
  unfold pairLess keyLess rowKey
  rcases lhs with ⟨pl, _ | lv⟩ <;> rcases rhs with ⟨pr, _ | rv⟩ <;> rfl

theorem keyLess_antisymm (a b : Nat × Option Nat) (hab : keyLess b a = false)
    (hba : keyLess a b = false) : a = b := by
  unfold keyLess at hab hba
  rcases a with ⟨pa, _ | ua⟩ <;> rcases b with ⟨pb, _ | ub⟩ <;> simp at hab hba ⊢
  · omega
  · refine ⟨?_, ?_⟩ <;> omega

/-- Two lists that the contract of `std::ranges::sort` allows as results for the
same input show the same keys in the same order. -/
theorem sorted_permutation_keys {out₁ out₂ : List ProcessQueryResultPair}
    (hperm : out₁.Perm out₂) (h₁ : out₁.Pairwise pairNotAfter)
    (h₂ : out₂.Pairwise pairNotAfter) : out₁.map rowKey = out₂.map rowKey := by
  haveI : IsAntisymm (Nat × Option Nat) (fun a b => keyLess b a = false) :=
    ⟨keyLess_antisymm⟩
  have hkey : ∀ {l : List ProcessQueryResultPair}, l.Pairwise pairNotAfter →
      (l.map rowKey).Pairwise (fun a b => keyLess b a = false) := by
    intro l hl
    rw [List.pairwise_map]
    exact hl.imp (fun {a b} h => by
      unfold pairNotAfter at h
      rwa [pairLess_eq_keyLess] at h)
  exact List.eq_of_perm_of_sorted (hperm.map rowKey) (hkey h₁) (hkey h₂)

/-- Every list that the contract of `std::ranges::sort` allows as the result, a
permutation of the input in which no later element is less than an earlier
one, is in the order of the specification. -/
theorem sorted_permutation_order (out : List ProcessQueryResultPair)
    (hsorted : out.Pairwise pairNotAfter) :
    out.Pairwise (fun lhs rhs =>
      (rhs.Result.isSome = true → lhs.Result.isSome = true) ∧
        (∀ lv rv, lhs.Result = some lv → rhs.Result = some rv →
          rv.PrivateUsage ≤ lv.PrivateUsage ∧
            (lv.PrivateUsage = rv.PrivateUsage → lhs.pid ≤ rhs.pid)) ∧
        (lhs.Result = none → rhs.Result = none → lhs.pid ≤ rhs.pid)) :=
  hsorted.imp pairNotAfter_order

theorem committedBytes_lt {os : WinApi} {hProcess : Nat} :
    ∀ {vs : List (Nat × MEMORY_BASIC_INFORMATION)} {address : Nat},
      VisitedFrom os hProcess address vs → (∀ x ∈ vs, x.1 + x.2.RegionSize < 2 ^ 64) →
      address < 2 ^ 64 → address + committedBytes vs < 2 ^ 64
  | [], _, _, _, ha => by simpa [committedBytes] using ha
  | (cursor, info) :: rest, address, hv, hr, _ => by
    obtain ⟨rfl, hlt, hq, hrest⟩ := hv
    have hfit : cursor + info.RegionSize < 2 ^ 64 := hr (cursor, info) (by simp)
    rw [Nat.mod_eq_of_lt hfit] at hrest
    have ih := committedBytes_lt hrest (fun x hx => hr x (List.mem_cons_of_mem _ hx)) hfit
    rw [committedBytes_cons]
    by_cases hs : info.State = MEM_COMMIT
    · simp only [hs, if_true]; omega
    · simp only [hs, if_false]; omega

theorem QueryProcess_not_ok {os : WinApi} {pid : Nat} (fuel : Nat)
    (hopen : os.OpenProcess pid ≠ 0)
    (hpath : ∃ path, os.GetModuleFileNameExW (os.OpenProcess pid) = some path)
    (hfail : (∃ errorCode, os.GetProcessMemoryInfo (os.OpenProcess pid) = .error errorCode) ∨
      ∀ PrivateCommittedSize WorkingSetExInformationList,
        sharedSizeLoop os (os.OpenProcess pid) fuel fuel 0 0 [] =
          some (PrivateCommittedSize, WorkingSetExInformationList) →
        ∃ errorCode,
          os.QueryWorkingSetEx (os.OpenProcess pid) WorkingSetExInformationList
            (bufferBytes WorkingSetExInformationList) = .error errorCode) :
    ∀ Result, QueryProcess os fuel pid ≠ some (.ok Result) := by
  intro Result
  obtain ⟨path, hpath⟩ := hpath
  unfold QueryProcess GetProcessProgramPath GetProcessPrivateUsage
  simp only [hopen, if_false, hpath]
  rcases hfail with ⟨errorCode, he⟩ | hws
  · rw [he]
    simp
  · cases os.GetProcessMemoryInfo (os.OpenProcess pid) with
    | error errorCode => simp
    | ok PrivateUsage =>
      simp only
      cases GetProcessCommittedMemorySize os (os.OpenProcess pid) fuel with
      | none => simp
      | some CommittedMemorySize =>
        simp only
        unfold GetProcessCommittedMemorySizeShared
        cases hloop : sharedSizeLoop os (os.OpenProcess pid) fuel fuel 0 0 [] with
        | none => simp
        | some r =>
          obtain ⟨errorCode, he⟩ := hws r.1 r.2 hloop
          simp only [he]
          simp

theorem QueryProcess_absent_iff (os : WinApi) (fuel pid : Nat) :
    QueryProcess os fuel pid = some (.ok none) ↔
      (os.OpenProcess pid = 0 ∨ os.GetModuleFileNameExW (os.OpenProcess pid) = none) := by
  unfold QueryProcess GetProcessProgramPath GetProcessPrivateUsage
  by_cases hopen : os.OpenProcess pid = 0
  · simp [hopen]
  · simp only [hopen, if_false, false_or]
    cases os.GetModuleFileNameExW (os.OpenProcess pid) with
    | none => simp
    | some FilePath =>
      simp only
      cases os.GetProcessMemoryInfo (os.OpenProcess pid) with
      | error errorCode => simp
      | ok PrivateUsage =>
        simp only
        cases GetProcessCommittedMemorySize os (os.OpenProcess pid) fuel with
        | none => simp
        | some CommittedMemorySize =>
          simp only
          rcases GetProcessCommittedMemorySizeShared os (os.OpenProcess pid) fuel with
            _ | (errorCode | r) <;> simp

theorem queryPairs_not_ok {os : WinApi} {fuel pid : Nat}
    (hfail : ∀ Result, QueryProcess os fuel pid ≠ some (.ok Result)) :
    ∀ pids : List Nat, pid ∈ pids → ∀ pairs, queryPairs os fuel pids ≠ some (.ok pairs)
  | [], hmem, _ => by simp at hmem
  | p :: pids, hmem, pairs => by
    unfold queryPairs
    rcases List.mem_cons.1 hmem with rfl | hmem
    · rcases hq : QueryProcess os fuel pid with _ | (errorCode | Result)
      · simp
      · simp
      · exact absurd hq (hfail Result)
    · rcases QueryProcess os fuel p with _ | (errorCode | Result)
      · simp
      · simp
      · simp only
        rcases hrest : queryPairs os fuel pids with _ | (errorCode | rest)
        · simp
        · simp
        · exact absurd hrest (queryPairs_not_ok hfail pids hmem rest)

theorem queryPairs_returns {os : WinApi} {fuel : Nat} :
    ∀ pids : List Nat, (∀ p ∈ pids, ∃ r, QueryProcess os fuel p = some r) →
      ∃ r, queryPairs os fuel pids = some r
  | [], _ => ⟨_, rfl⟩
  | p :: pids, h => by
    obtain ⟨r, hr⟩ := h p (by simp)
    obtain ⟨rs, hrs⟩ := queryPairs_returns pids (fun q hq => h q (List.mem_cons_of_mem _ hq))
    unfold queryPairs
    rw [hr, hrs]
    rcases r with errorCode | Result
    · exact ⟨_, rfl⟩
    · rcases rs with errorCode | rest <;> exact ⟨_, rfl⟩

theorem stuckApi_loop (hProcess : Nat) :
    ∀ fuel committedSize : Nat,
      committedSizeLoop stuckApi hProcess fuel 65536 committedSize = none
  | 0, _ => rfl
  | fuel + 1, committedSize => by
    unfold committedSizeLoop
    simp only [stuckApi, MEM_COMMIT, MEM_PRIVATE]
    norm_num
    exact stuckApi_loop hProcess fuel _

theorem emptyRegionApi_loop (hProcess : Nat) :
    ∀ fuel committedSize : Nat,
      committedSizeLoop emptyRegionApi hProcess fuel 0 committedSize = none
  | 0, _ => rfl
  | fuel + 1, committedSize => by
    unfold committedSizeLoop
    simp only [emptyRegionApi, MEM_COMMIT, MEM_FREE]
    norm_num
    exact emptyRegionApi_loop hProcess fuel _

theorem emptyRegionApi_sharedLoop (hProcess pageFuel : Nat) :
    ∀ (fuel PrivateCommittedSize : Nat) (l : List PSAPI_WORKING_SET_EX_INFORMATION),
      sharedSizeLoop emptyRegionApi hProcess pageFuel fuel 0 PrivateCommittedSize l = none
  | 0, _, _ => rfl
  | fuel + 1, PrivateCommittedSize, l => by
    unfold sharedSizeLoop
    simp only [emptyRegionApi, MEM_COMMIT, MEM_FREE]
    norm_num
    exact emptyRegionApi_sharedLoop hProcess pageFuel fuel _ _

theorem pageLoop_aligned :
    ∀ (n fuel a stop : Nat) (l : List PSAPI_WORKING_SET_EX_INFORMATION),
      4096 ∣ a → 4096 ∣ stop → stop < 2 ^ 64 → stop ≤ a + 4096 * n → n < fuel →
      ∃ added, pageLoop fuel a stop l = some (l ++ added) ∧
        ∀ i ∈ added, 4096 ∣ i.VirtualAddress ∧ a ≤ i.VirtualAddress ∧ i.VirtualAddress < stop
  | 0, fuel, a, stop, l, _, _, _, h, hf => by
    obtain ⟨fuel, rfl⟩ : ∃ m, fuel = m + 1 := ⟨fuel - 1, by omega⟩
    refine ⟨[], ?_, by simp⟩
    unfold pageLoop
    rw [if_neg (by omega)]
    simp
  | n + 1, fuel, a, stop, l, ha, hs, hlt64, h, hf => by
    obtain ⟨fuel, rfl⟩ : ∃ m, fuel = m + 1 := ⟨fuel - 1, by omega⟩
    unfold pageLoop
    by_cases hlt : a < stop
    · have hnext : (a + PageSize) % 2 ^ 64 = a + 4096 := by
        unfold PageSize
        omega
      obtain ⟨added, hrun, hadded⟩ :=
        pageLoop_aligned n fuel (a + 4096) stop (l ++ [⟨a, ⟨false, 0, false⟩⟩])
          (by omega) hs hlt64 (by omega) (by omega)
      refine ⟨⟨a, ⟨false, 0, false⟩⟩ :: added, ?_, ?_⟩
      · rw [if_pos hlt, hnext, hrun]
        simp
      · intro i hi
        rcases List.mem_cons.1 hi with rfl | hi
        · exact ⟨ha, Nat.le_refl _, hlt⟩
        · obtain ⟨h1, h2, h3⟩ := hadded i hi
          exact ⟨h1, by omega, h3⟩
    · refine ⟨[], ?_, by simp⟩
      rw [if_neg hlt]
      simp

theorem sharedSizeLoop_aligned {os : WinApi} {hProcess : Nat} (pageFuel : Nat) :
    ∀ {vs : List (Nat × MEMORY_BASIC_INFORMATION)} {address : Nat},
      VisitedFrom os hProcess address vs → (∀ x ∈ vs, 4096 ∣ x.2.RegionSize) →
      4096 ∣ address → (∀ x ∈ vs, pageCount x.2.RegionSize < pageFuel) →
      ∀ (fuel PrivateCommittedSize : Nat) (l : List PSAPI_WORKING_SET_EX_INFORMATION),
        vs.length < fuel →
        ∃ total added,
          sharedSizeLoop os hProcess pageFuel fuel address PrivateCommittedSize l =
            some (total, l ++ added) ∧
          ∀ i ∈ added, 4096 ∣ i.VirtualAddress ∧
            ∃ x ∈ vs, x.2.State = MEM_COMMIT ∧ x.1 ≤ i.VirtualAddress ∧
              i.VirtualAddress < x.1 + x.2.RegionSize
  | [], address, hv, _, _, _, fuel, priv, l, hf => by
    obtain ⟨fuel, rfl⟩ : ∃ n, fuel = n + 1 := ⟨fuel - 1, by simp at hf; omega⟩
    refine ⟨priv, [], ?_, by simp⟩
    unfold sharedSizeLoop
    rcases hv with hv | hv
    · rw [if_neg hv]; simp
    · rw [hv]; split <;> simp
  | (cursor, info) :: rest, address, hv, hm, ha, hp, fuel, priv, l, hf => by
    obtain ⟨fuel, rfl⟩ : ∃ n, fuel = n + 1 := ⟨fuel - 1, by simp at hf; omega⟩
    obtain ⟨rfl, hlt, hq, hrest⟩ := hv
    have hf' : rest.length < fuel := by simp at hf; omega
    have hm' : ∀ x ∈ rest, 4096 ∣ x.2.RegionSize :=
      fun x hx => hm x (List.mem_cons_of_mem _ hx)
    have hp' : ∀ x ∈ rest, pageCount x.2.RegionSize < pageFuel :=
      fun x hx => hp x (List.mem_cons_of_mem _ hx)
    have hsz : 4096 ∣ info.RegionSize := hm (cursor, info) (by simp)
    have hpf : pageCount info.RegionSize < pageFuel := hp (cursor, info) (by simp)
    have hstop : 4096 ∣ (cursor + info.RegionSize) % 2 ^ 64 := by omega
    have hle : (cursor + info.RegionSize) % 2 ^ 64 ≤ cursor + info.RegionSize :=
      Nat.mod_le _ _
    have lift : ∀ (total : Nat) (added : List PSAPI_WORKING_SET_EX_INFORMATION),
        (∀ i ∈ added, 4096 ∣ i.VirtualAddress ∧
          ∃ x ∈ rest, x.2.State = MEM_COMMIT ∧ x.1 ≤ i.VirtualAddress ∧
            i.VirtualAddress < x.1 + x.2.RegionSize) →
        ∀ i ∈ added, 4096 ∣ i.VirtualAddress ∧
          ∃ x ∈ (cursor, info) :: rest, x.2.State = MEM_COMMIT ∧ x.1 ≤ i.VirtualAddress ∧
            i.VirtualAddress < x.1 + x.2.RegionSize := by
      intro _ added h i hi
      obtain ⟨h1, x, hx, h2⟩ := h i hi
      exact ⟨h1, x, List.mem_cons_of_mem _ hx, h2⟩
    unfold sharedSizeLoop
    rw [if_pos hlt, hq]
    simp only
    by_cases hs : info.State = MEM_COMMIT
    · by_cases ht : info.Type_ = MEM_PRIVATE
      · rw [if_pos hs, if_pos ht]
        obtain ⟨total, added, hrun, hadded⟩ :=
          sharedSizeLoop_aligned pageFuel hrest hm' hstop hp' fuel
            ((priv + info.RegionSize) % 2 ^ 64) l hf'
        exact ⟨total, added, hrun, lift total added hadded⟩
      · rw [if_pos hs, if_neg ht]
        obtain ⟨pages, hpages, hin⟩ :=
          pageLoop_aligned (pageCount info.RegionSize) pageFuel cursor
            ((cursor + info.RegionSize) % 2 ^ 64) l ha hstop (Nat.mod_lt _ (by norm_num))
            (by unfold pageCount; omega) hpf
        rw [hpages]
        simp only
        obtain ⟨total, added, hrun, hadded⟩ :=
          sharedSizeLoop_aligned pageFuel hrest hm' hstop hp' fuel priv (l ++ pages) hf'
        refine ⟨total, pages ++ added, ?_, ?_⟩
        · rw [hrun, List.append_assoc]
        · intro i hi
          rcases List.mem_append.1 hi with hi | hi
          · obtain ⟨h1, h2, h3⟩ := hin i hi
            exact ⟨h1, (cursor, info), by simp, hs, h2, by simp only; omega⟩
          · exact lift total added hadded i hi
    · rw [if_neg hs]
      obtain ⟨total, added, hrun, hadded⟩ :=
        sharedSizeLoop_aligned pageFuel hrest hm' hstop hp' fuel priv l hf'
      exact ⟨total, added, hrun, lift total added hadded⟩

/-! ## The claims -/

/-- C1, amended: for every unsigned 64-bit byte count `size` that is at most
`2 ^ 64 - 1048576`, `GetMiB size` is the ceiling of `size / 1048576`, that is the
least `m` with `m * 1048576 ≥ size`; in particular `GetMiB 0 = 0`,
`GetMiB 1 = 1`, `GetMiB 1048576 = 1` and `GetMiB 1048577 = 2`. -/
theorem GetMiB_ceiling (size : Nat) (h : size ≤ 2 ^ 64 - 1048576) :
    (size ≤ GetMiB size * 1048576 ∧ ∀ m, size ≤ m * 1048576 → GetMiB size ≤ m) ∧
      GetMiB 0 = 0 ∧ GetMiB 1 = 1 ∧ GetMiB 1048576 = 1 ∧ GetMiB 1048577 = 2 := by
  refine ⟨⟨?_, ?_⟩, by decide, by decide, by decide, by decide⟩
  · rw [GetMiB_eq size (by omega)]
    omega
  · intro m hm
    rw [GetMiB_eq size (by omega)]
    omega

/-- Witness of C1 at `size = 1048577`. -/
theorem GetMiB_ceiling_witness :
    1048577 ≤ 2 ^ 64 - 1048576 ∧
      ((1048577 ≤ GetMiB 1048577 * 1048576 ∧
          ∀ m, 1048577 ≤ m * 1048576 → GetMiB 1048577 ≤ m) ∧
        GetMiB 0 = 0 ∧ GetMiB 1 = 1 ∧ GetMiB 1048576 = 1 ∧ GetMiB 1048577 = 2) :=
  ⟨by decide, GetMiB_ceiling 1048577 (by decide)⟩

/-- C1 as stated fails at `size = 2 ^ 64 - 1`: the addition wraps, `GetMiB`
returns 0, and `0 * 1048576` is below `size`, while the ceiling is `2 ^ 44`. -/
theorem GetMiB_wraps_at_max :
    GetMiB 18446744073709551615 = 0 ∧
      ¬ 18446744073709551615 ≤ GetMiB 18446744073709551615 * 1048576 ∧
      (18446744073709551615 + 1048575) / 1048576 = 17592186044416 := by
  decide

/-- C2: the list produced by the sort in `PrintQueryResult` is a permutation of
the input in which every pair with a report precedes every pair without one,
the pairs with a report are in non-increasing `PrivateUsage` order with equal
`PrivateUsage` ordered by ascending pid, and the pairs without a report are in
ascending pid order; for reports with `PrivateUsage` 10, 30, 30, absent and
pids 5, 2, 7, 1 the output pid order is 2, 7, 5, 1.  The same holds of every
list that the contract of `std::ranges::sort` allows as the result, and all of
them show the pids in the order of `sortPairs`. -/
theorem PrintQueryResult_sort_order (pairs : List ProcessQueryResultPair) :
    (sortPairs pairs).Perm pairs ∧
      (sortPairs pairs).Pairwise (fun lhs rhs =>
        (rhs.Result.isSome = true → lhs.Result.isSome = true) ∧
          (∀ lv rv, lhs.Result = some lv → rhs.Result = some rv →
            rv.PrivateUsage ≤ lv.PrivateUsage ∧
              (lv.PrivateUsage = rv.PrivateUsage → lhs.pid ≤ rhs.pid)) ∧
          (lhs.Result = none → rhs.Result = none → lhs.pid ≤ rhs.pid)) ∧
      (sortPairs [⟨5, some ⟨5, 10, 0, 0, 0, ""⟩⟩, ⟨2, some ⟨2, 30, 0, 0, 0, ""⟩⟩,
        ⟨7, some ⟨7, 30, 0, 0, 0, ""⟩⟩, ⟨1, none⟩]).map (fun p => p.pid) = [2, 7, 5, 1] ∧
      ∀ out : List ProcessQueryResultPair, out.Perm pairs →
        out.Pairwise (fun lhs rhs => pairLess rhs lhs = false) →
        out.map (fun p => p.pid) = (sortPairs pairs).map (fun p => p.pid) ∧
          out.Pairwise (fun lhs rhs =>
            (rhs.Result.isSome = true → lhs.Result.isSome = true) ∧
              (∀ lv rv, lhs.Result = some lv → rhs.Result = some rv →
                rv.PrivateUsage ≤ lv.PrivateUsage ∧
                  (lv.PrivateUsage = rv.PrivateUsage → lhs.pid ≤ rhs.pid)) ∧
              (lhs.Result = none → rhs.Result = none → lhs.pid ≤ rhs.pid)) := by
  haveI : IsTotal ProcessQueryResultPair pairNotAfter := ⟨pairNotAfter_total⟩
  haveI : IsTrans ProcessQueryResultPair pairNotAfter := ⟨pairNotAfter_trans⟩
  have hsorted : (sortPairs pairs).Pairwise pairNotAfter :=
    List.sorted_insertionSort pairNotAfter pairs
  have hperm : (sortPairs pairs).Perm pairs := List.perm_insertionSort _ _
  refine ⟨hperm, sorted_permutation_order _ hsorted, by decide, ?_⟩
  intro out hout hordered
  refine ⟨?_, sorted_permutation_order out hordered⟩
  have hkeys := sorted_permutation_keys (hout.trans hperm.symm) hordered hsorted
  have hpid : ∀ l : List ProcessQueryResultPair,
      l.map (fun p => p.pid) = (l.map rowKey).map Prod.fst := by
    intro l
    rw [List.map_map]
    rfl
  rw [hpid, hpid, hkeys]

/-- C4, amended: for every list of pids and every system in which the
private-usage query or the batched page-share query that the program makes
fails for one pid of the list whose process can be opened and whose path
resolves, the sweep in `PrintQueryResult` does not complete: no list of reports
is produced, and whenever every single `QueryProcess` call of the sweep returns
or throws, the sweep ends with a thrown error code.  A pid gets an absent
report exactly when its process cannot be opened or its path cannot be
resolved. -/
theorem PrintQueryResult_query_failure_aborts (os : WinApi) (pids : List Nat) (pid fuel : Nat)
    (hmem : pid ∈ pids) (hopen : os.OpenProcess pid ≠ 0)
    (hpath : ∃ path, os.GetModuleFileNameExW (os.OpenProcess pid) = some path)
    (hfail : (∃ errorCode, os.GetProcessMemoryInfo (os.OpenProcess pid) = .error errorCode) ∨
      ∀ PrivateCommittedSize WorkingSetExInformationList,
        sharedSizeLoop os (os.OpenProcess pid) fuel fuel 0 0 [] =
          some (PrivateCommittedSize, WorkingSetExInformationList) →
        ∃ errorCode,
          os.QueryWorkingSetEx (os.OpenProcess pid) WorkingSetExInformationList
            (bufferBytes WorkingSetExInformationList) = .error errorCode) :
    (¬ ∃ pairs, PrintQueryResult_pairs os fuel pids = some (.ok pairs)) ∧
      ((∀ p ∈ pids, ∃ r, QueryProcess os fuel p = some r) →
        ∃ errorCode, PrintQueryResult_pairs os fuel pids = some (.error errorCode)) ∧
      ∀ p, QueryProcess os fuel p = some (.ok none) ↔
        (os.OpenProcess p = 0 ∨ os.GetModuleFileNameExW (os.OpenProcess p) = none) := by
  have hnot := queryPairs_not_ok (QueryProcess_not_ok fuel hopen hpath hfail) pids hmem
  refine ⟨?_, ?_, QueryProcess_absent_iff os fuel⟩
  · rintro ⟨pairs, hp⟩
    unfold PrintQueryResult_pairs at hp
    rcases hq : queryPairs os fuel pids with _ | (errorCode | rest)
    · rw [hq] at hp; simp at hp
    · rw [hq] at hp; simp at hp
    · exact hnot rest hq
  · intro hall
    obtain ⟨r, hr⟩ := queryPairs_returns pids hall
    unfold PrintQueryResult_pairs
    rw [hr]
    rcases r with errorCode | rest
    · exact ⟨errorCode, rfl⟩
    · exact absurd hr (hnot rest)

theorem pageQueryFailsApi_call :
    ∀ PrivateCommittedSize WorkingSetExInformationList,
      sharedSizeLoop pageQueryFailsApi (pageQueryFailsApi.OpenProcess 4) 17 17 0 0 [] =
        some (PrivateCommittedSize, WorkingSetExInformationList) →
      ∃ errorCode,
        pageQueryFailsApi.QueryWorkingSetEx (pageQueryFailsApi.OpenProcess 4)
          WorkingSetExInformationList (bufferBytes WorkingSetExInformationList) =
          .error errorCode := by
  intro PrivateCommittedSize WorkingSetExInformationList h
  have hrun : sharedSizeLoop pageQueryFailsApi (pageQueryFailsApi.OpenProcess 4) 17 17 0 0 [] =
      some (0x3000, [⟨0x13000, ⟨false, 0, false⟩⟩, ⟨0x14000, ⟨false, 0, false⟩⟩]) := by
    decide
  rw [hrun] at h
  simp only [Option.some.injEq, Prod.mk.injEq] at h
  obtain ⟨-, rfl⟩ := h
  exact ⟨87, rfl⟩

/-- Witness of C4, one for each kind of failing query: pids 8 and 4 of
`sampleApi`, where the private-usage query of pid 8 fails with error 5, and
pids 4 and 9 of `pageQueryFailsApi`, where the private-usage query succeeds and
only the page-share call that the program makes for pid 4 fails, with error
87. -/
theorem PrintQueryResult_query_failure_aborts_witness :
    ((8 ∈ [8, 4] ∧ sampleApi.OpenProcess 8 ≠ 0 ∧
        (∃ path, sampleApi.GetModuleFileNameExW (sampleApi.OpenProcess 8) = some path) ∧
        sampleApi.GetProcessMemoryInfo (sampleApi.OpenProcess 8) = .error 5) ∧
      ((¬ ∃ pairs, PrintQueryResult_pairs sampleApi 5 [8, 4] = some (.ok pairs)) ∧
        ((∀ p ∈ [8, 4], ∃ r, QueryProcess sampleApi 5 p = some r) →
          ∃ errorCode,
            PrintQueryResult_pairs sampleApi 5 [8, 4] = some (.error errorCode)) ∧
        ∀ p, QueryProcess sampleApi 5 p = some (.ok none) ↔
          (sampleApi.OpenProcess p = 0 ∨
            sampleApi.GetModuleFileNameExW (sampleApi.OpenProcess p) = none))) ∧
      ((4 ∈ [4, 9] ∧ pageQueryFailsApi.OpenProcess 4 ≠ 0 ∧
        (∃ path, pageQueryFailsApi.GetModuleFileNameExW (pageQueryFailsApi.OpenProcess 4) =
          some path) ∧
        pageQueryFailsApi.GetProcessMemoryInfo (pageQueryFailsApi.OpenProcess 4) =
          .ok 12288 ∧
        sharedSizeLoop pageQueryFailsApi (pageQueryFailsApi.OpenProcess 4) 17 17 0 0 [] =
          some (0x3000, [⟨0x13000, ⟨false, 0, false⟩⟩, ⟨0x14000, ⟨false, 0, false⟩⟩]) ∧
        pageQueryFailsApi.QueryWorkingSetEx (pageQueryFailsApi.OpenProcess 4)
          [⟨0x13000, ⟨false, 0, false⟩⟩, ⟨0x14000, ⟨false, 0, false⟩⟩] 32 = .error 87 ∧
        pageQueryFailsApi.QueryWorkingSetEx (pageQueryFailsApi.OpenProcess 4) [] 0 =
          .ok (fun _ => ⟨false, 0, false⟩)) ∧
      ((¬ ∃ pairs, PrintQueryResult_pairs pageQueryFailsApi 17 [4, 9] = some (.ok pairs)) ∧
        ((∀ p ∈ [4, 9], ∃ r, QueryProcess pageQueryFailsApi 17 p = some r) →
          ∃ errorCode,
            PrintQueryResult_pairs pageQueryFailsApi 17 [4, 9] =
              some (.error errorCode)) ∧
        ∀ p, QueryProcess pageQueryFailsApi 17 p = some (.ok none) ↔
          (pageQueryFailsApi.OpenProcess p = 0 ∨
            pageQueryFailsApi.GetModuleFileNameExW (pageQueryFailsApi.OpenProcess p) =
              none))) :=
  ⟨⟨⟨by decide, by decide, ⟨_, rfl⟩, rfl⟩,
      PrintQueryResult_query_failure_aborts sampleApi [8, 4] 8 5 (by decide) (by decide)
        ⟨_, rfl⟩ (Or.inl ⟨5, rfl⟩)⟩,
    ⟨⟨by decide, by decide, ⟨_, rfl⟩, rfl, by decide, rfl, rfl⟩,
      PrintQueryResult_query_failure_aborts pageQueryFailsApi [4, 9] 4 17 (by decide)
        (by decide) ⟨_, rfl⟩ (Or.inr pageQueryFailsApi_call)⟩⟩

/-- C4 as stated fails on `sampleApi` with pids 8 and 4: the private-usage query
of pid 8 fails with error 5, and the sweep ends with that error for every fuel
instead of giving pid 8 an absent report, although pid 4 alone gets a report. -/
theorem PrintQueryResult_sweep_aborted :
    sampleApi.GetProcessMemoryInfo (sampleApi.OpenProcess 8) = .error 5 ∧
      PrintQueryResult_pairs sampleApi 5 [8, 4] = some (.error 5) ∧
      (¬ ∃ fuel pairs, PrintQueryResult_pairs sampleApi fuel [8, 4] = some (.ok pairs)) ∧
      PrintQueryResult_pairs sampleApi 5 [4] =
        some (.ok [⟨4, some ⟨4, 12288, 0x5000, 0x4000, 0x1000, "app.exe"⟩⟩]) := by
  refine ⟨rfl, rfl, ?_, rfl⟩
  rintro ⟨fuel, pairs, h⟩
  have hq : QueryProcess sampleApi fuel 8 = some (.error 5) := rfl
  unfold PrintQueryResult_pairs queryPairs at h
  rw [hq] at h
  simp at h

/-- C5, amended: for every region-query oracle whose walk visits a finite
sequence of regions (the answers to the queries at cursor 0 and then at each
previous cursor plus the previous region's size, up to the first failed query
or the first cursor that is not below `0x800000000000`),
`GetProcessCommittedMemorySize` returns the sum, in 64-bit arithmetic, of the
sizes of exactly those visited regions whose state is `MEM_COMMIT`; consecutive
visited cursors `c[i]`, `c[i+1]`, the base addresses the code uses, satisfy
`c[i+1] = c[i] + r[i].size` in 64-bit arithmetic and the first is 0; regions
of any other state contribute nothing. -/
theorem GetProcessCommittedMemorySize_sum (os : WinApi) (hProcess : Nat)
    (vs : List (Nat × MEMORY_BASIC_INFORMATION)) (fuel : Nat)
    (hv : VisitedFrom os hProcess 0 vs) (hf : vs.length < fuel) :
    GetProcessCommittedMemorySize os hProcess fuel =
        some (((vs.filter (fun x => x.2.State = MEM_COMMIT)).map
          (fun x => x.2.RegionSize)).sum % 2 ^ 64) ∧
      (∀ x, vs.head? = some x → x.1 = 0) ∧
      vs.Chain' (fun x y => y.1 = (x.1 + x.2.RegionSize) % 2 ^ 64) ∧
      ∀ x ∈ vs, x.1 < 0x800000000000 ∧ os.VirtualQueryEx hProcess x.1 = some x.2 := by
  refine ⟨?_, (VisitedFrom_chain hv).1, (VisitedFrom_chain hv).2, VisitedFrom_mem hv⟩
  unfold GetProcessCommittedMemorySize
  rw [committedSizeLoop_eq hv fuel 0 hf (by norm_num), Nat.zero_add]
  rfl

/-- Witness of C5: the four regions of a process of `sampleApi`. -/
theorem GetProcessCommittedMemorySize_sum_witness :
    (VisitedFrom sampleApi 104 0 sampleRegions ∧ sampleRegions.length < 5) ∧
      (GetProcessCommittedMemorySize sampleApi 104 5 =
          some (((sampleRegions.filter (fun x => x.2.State = MEM_COMMIT)).map
            (fun x => x.2.RegionSize)).sum % 2 ^ 64) ∧
        (∀ x, sampleRegions.head? = some x → x.1 = 0) ∧
        sampleRegions.Chain' (fun x y => y.1 = (x.1 + x.2.RegionSize) % 2 ^ 64) ∧
        ∀ x ∈ sampleRegions,
          x.1 < 0x800000000000 ∧ sampleApi.VirtualQueryEx 104 x.1 = some x.2) :=
  ⟨⟨by decide, by decide⟩,
    GetProcessCommittedMemorySize_sum sampleApi 104 sampleRegions 5 (by decide) (by decide)⟩

/-- C5 as stated fails on `stuckApi`: the second region reported has size 0,
the cursor stays at 65536, and `GetProcessCommittedMemorySize` returns nothing
for any fuel. -/
theorem GetProcessCommittedMemorySize_never_returns :
    stuckApi.VirtualQueryEx 104 0 = some ⟨0, 0x10000, MEM_FREE, 0⟩ ∧
      stuckApi.VirtualQueryEx 104 0x10000 = some ⟨0x10000, 0, MEM_COMMIT, MEM_PRIVATE⟩ ∧
      ¬ ∃ fuel committedSize,
        GetProcessCommittedMemorySize stuckApi 104 fuel = some committedSize := by
  refine ⟨rfl, rfl, ?_⟩
  rintro ⟨fuel, committedSize, h⟩
  cases fuel with
  | zero => simp [GetProcessCommittedMemorySize, committedSizeLoop] at h
  | succ fuel =>
    have h0 : GetProcessCommittedMemorySize stuckApi 104 (fuel + 1) =
        committedSizeLoop stuckApi 104 fuel 65536 0 := rfl
    rw [h0, stuckApi_loop] at h
    simp at h

/-- C6, amended: for every finite visited region sequence on which no address
computation overflows and every successful batched page-share response,
`GetProcessCommittedMemorySizeShared` returns `(committedPrivate, committedShared)`
with `committedPrivate` = ((sum of the sizes of committed private-type regions)
+ 4096 * (number of candidate pages classified private)) mod `2 ^ 64` and
`committedShared` = (4096 * (number of candidate pages classified shared)) mod
`2 ^ 64`; the candidate page list holds the pages of the committed regions that
are not of private type, every candidate lies in such a region, and no
candidate lies in a committed private-type region or in a region that is not
committed. -/
theorem GetProcessCommittedMemorySizeShared_totals (os : WinApi) (hProcess : Nat)
    (vs : List (Nat × MEMORY_BASIC_INFORMATION)) (fuel : Nat)
    (attributes : Nat → PSAPI_WORKING_SET_EX_BLOCK)
    (hv : VisitedFrom os hProcess 0 vs) (hr : NoAddressOverflow vs) (hf : EnoughFuel vs fuel)
    (hok : os.QueryWorkingSetEx hProcess (newEntries (candidatePages vs))
      (bufferBytes (newEntries (candidatePages vs))) = .ok attributes) :
    GetProcessCommittedMemorySizeShared os hProcess fuel =
        some (.ok
          ((privateRegionBytes vs + 4096 *
              (fillAttributes attributes 0 (newEntries (candidatePages vs))).countP
                (fun i => !classifiedShared i)) % 2 ^ 64,
            (4096 * (fillAttributes attributes 0 (newEntries (candidatePages vs))).countP
                classifiedShared) % 2 ^ 64)) ∧
      sharedSizeLoop os hProcess fuel fuel 0 0 [] =
        some (privateRegionBytes vs % 2 ^ 64, newEntries (candidatePages vs)) ∧
      (∀ a ∈ candidatePages vs, ∃ x ∈ vs, x.2.State = MEM_COMMIT ∧ x.2.Type_ ≠ MEM_PRIVATE ∧
        x.1 ≤ a ∧ a < x.1 + x.2.RegionSize) ∧
      ∀ a ∈ candidatePages vs, ∀ x ∈ vs,
        ¬ (x.2.State = MEM_COMMIT ∧ x.2.Type_ ≠ MEM_PRIVATE) →
        ¬ (x.1 ≤ a ∧ a < x.1 + x.2.RegionSize) := by
  obtain ⟨hloop, hres⟩ := GetProcessCommittedMemorySizeShared_eq hv hr fuel hf
  rw [hok] at hres
  refine ⟨hres, hloop, ?_, ?_⟩
  · intro a ha
    obtain ⟨x, hx, hs, ht, hp⟩ := mem_candidatePages ha
    obtain ⟨h1, h2, -⟩ := mem_pagesOf hp
    exact ⟨x, hx, hs, ht, h1, h2⟩
  · intro a ha y hy hny hin
    obtain ⟨x, hx, hs, ht, hp⟩ := mem_candidatePages ha
    obtain ⟨h1, h2, -⟩ := mem_pagesOf hp
    have hne : x ≠ y := fun h => hny (h ▸ ⟨hs, ht⟩)
    have hpair := (VisitedFrom_sorted hv (fun z hz => (hr z hz).1)).2
    have hsym : Symmetric (fun u v : Nat × MEMORY_BASIC_INFORMATION =>
        u.1 + u.2.RegionSize ≤ v.1 ∨ v.1 + v.2.RegionSize ≤ u.1) :=
      fun u v h => h.symm
    have hdis := List.Pairwise.forall hsym (hpair.imp (fun h => Or.inl h)) hx hy hne
    simp only at hdis
    omega

/-- Witness of C6: the four regions of a process of `sampleApi`, whose two
mapped pages are classified shared and private. -/
theorem GetProcessCommittedMemorySizeShared_totals_witness :
    (VisitedFrom sampleApi 104 0 sampleRegions ∧ NoAddressOverflow sampleRegions ∧
      EnoughFuel sampleRegions 17 ∧
      sampleApi.QueryWorkingSetEx 104 (newEntries (candidatePages sampleRegions))
        (bufferBytes (newEntries (candidatePages sampleRegions))) =
        .ok (fun k => if k = 0 then ⟨true, 2, true⟩ else ⟨true, 0, true⟩)) ∧
      GetProcessCommittedMemorySizeShared sampleApi 104 17 = some (.ok (0x4000, 0x1000)) :=
  ⟨⟨by decide, by unfold NoAddressOverflow; decide, by unfold EnoughFuel; decide, rfl⟩,
    (GetProcessCommittedMemorySizeShared_totals sampleApi 104 sampleRegions 17
      (fun k => if k = 0 then ⟨true, 2, true⟩ else ⟨true, 0, true⟩) (by decide)
      (by unfold NoAddressOverflow; decide) (by unfold EnoughFuel; decide) rfl).1.trans rfl⟩

/-- C6 as stated fails on `hugeRegionApi`: the visited regions are committed
private regions of 4096 and `2 ^ 64 - 1` bytes, there is no candidate page, and
the function returns `committedPrivate = 4095`, not the sum `2 ^ 64 + 4095`. -/
theorem GetProcessCommittedMemorySizeShared_sum_wraps :
    VisitedFrom hugeRegionApi 104 0
        [(0, ⟨0, 4096, MEM_COMMIT, MEM_PRIVATE⟩),
          (4096, ⟨4096, 2 ^ 64 - 1, MEM_COMMIT, MEM_PRIVATE⟩)] ∧
      candidatePages [(0, ⟨0, 4096, MEM_COMMIT, MEM_PRIVATE⟩),
          (4096, ⟨4096, 2 ^ 64 - 1, MEM_COMMIT, MEM_PRIVATE⟩)] = [] ∧
      privateRegionBytes [(0, ⟨0, 4096, MEM_COMMIT, MEM_PRIVATE⟩),
          (4096, ⟨4096, 2 ^ 64 - 1, MEM_COMMIT, MEM_PRIVATE⟩)] = 2 ^ 64 + 4095 ∧
      GetProcessCommittedMemorySizeShared hugeRegionApi 104 3 = some (.ok (4095, 0)) ∧
      ¬ ∃ n : Nat, 4095 = 2 ^ 64 + 4095 + 4096 * n := by
  refine ⟨by decide, by decide, by decide, rfl, ?_⟩
  rintro ⟨n, h⟩
  omega

/-- C7, amended: for every process handle for which the region query at address
0 fails, the address-space walk ends at once without an error:
`GetProcessCommittedMemorySize` returns 0, and
`GetProcessCommittedMemorySizeShared` hands an empty page list to the page-share
query and returns `(0, 0)` when that query succeeds, or throws that query's
error code. -/
theorem walk_of_unavailable_process (os : WinApi) (hProcess fuel : Nat)
    (hq : os.VirtualQueryEx hProcess 0 = none) (hf : 0 < fuel) :
    GetProcessCommittedMemorySize os hProcess fuel = some 0 ∧
      GetProcessCommittedMemorySizeShared os hProcess fuel =
        match os.QueryWorkingSetEx hProcess [] 0 with
        | .error errorCode => some (.error errorCode)
        | .ok _ => some (.ok (0, 0)) := by
  obtain ⟨fuel, rfl⟩ : ∃ n, fuel = n + 1 := ⟨fuel - 1, by omega⟩
  constructor
  · unfold GetProcessCommittedMemorySize committedSizeLoop
    simp [hq]
  · unfold GetProcessCommittedMemorySizeShared sharedSizeLoop
    simp only [hq]
    norm_num
    have hb : bufferBytes [] = 0 := rfl
    rw [hb]
    cases os.QueryWorkingSetEx hProcess [] 0 with
    | error errorCode => rfl
    | ok attributes => rfl

/-- Witness of C7: a process of `goneApi`, whose every region query fails. -/
theorem walk_of_unavailable_process_witness :
    (goneApi.VirtualQueryEx 104 0 = none ∧ 0 < 1) ∧
      (GetProcessCommittedMemorySize goneApi 104 1 = some 0 ∧
        GetProcessCommittedMemorySizeShared goneApi 104 1 =
          match goneApi.QueryWorkingSetEx 104 [] 0 with
          | .error errorCode => some (.error errorCode)
          | .ok _ => some (.ok (0, 0))) :=
  ⟨⟨rfl, by decide⟩, walk_of_unavailable_process goneApi 104 1 rfl (by decide)⟩

/-- C7 as stated fails on `goneApi`: the region query at address 0 fails, and
both functions return numeric results, 0 and `(0, 0)`, instead of failing. -/
theorem walk_returns_zero_when_unavailable :
    goneApi.VirtualQueryEx 104 0 = none ∧
      GetProcessCommittedMemorySize goneApi 104 1 = some 0 ∧
      GetProcessCommittedMemorySizeShared goneApi 104 1 = some (.ok (0, 0)) ∧
      QueryProcess goneApi 1 4 = some (.ok (some ⟨4, 12288, 0, 0, 0, "app.exe"⟩)) :=
  ⟨rfl, rfl, rfl, rfl⟩

/-- C8, amended: for every region-query oracle whose every answered region is
non-empty and ends below `2 ^ 64`, the address-space walk visits at most
`0x800000000000` regions and terminates normally: it stops at the first query
that fails or as soon as the cursor reaches the upper bound `0x800000000000`.
`GetProcessCommittedMemorySize` then returns, and so does
`GetProcessCommittedMemorySizeShared` when no address computation of its page
loop overflows. -/
theorem walk_terminates (os : WinApi) (hProcess : Nat) (hq : CursorAdvances os hProcess) :
    ∃ vs, VisitedFrom os hProcess 0 vs ∧ vs.length ≤ 0x800000000000 ∧
      (∀ fuel, vs.length < fuel →
        ∃ committedSize, GetProcessCommittedMemorySize os hProcess fuel = some committedSize) ∧
      (NoAddressOverflow vs → ∀ fuel, 2 ^ 52 < fuel →
        ∃ r, GetProcessCommittedMemorySizeShared os hProcess fuel = some r) := by
  obtain ⟨vs, hv, hlen⟩ := VisitedFrom_exists hq 0x800000000000 0 (by norm_num)
  refine ⟨vs, hv, hlen, ?_, ?_⟩
  · intro fuel hf
    exact ⟨_, committedSizeLoop_eq hv fuel 0 hf (by norm_num)⟩
  · intro hr fuel hf
    have hfuel : EnoughFuel vs fuel := by
      refine ⟨by omega, ?_⟩
      intro x hx
      have := (hr x hx).1
      unfold pageCount
      omega
    rw [(GetProcessCommittedMemorySizeShared_eq hv hr fuel hfuel).2]
    cases os.QueryWorkingSetEx hProcess (newEntries (candidatePages vs))
        (bufferBytes (newEntries (candidatePages vs))) with
    | error errorCode => exact ⟨_, rfl⟩
    | ok attributes => exact ⟨_, rfl⟩

theorem sampleApi_advances : CursorAdvances sampleApi 104 := by
  intro address info _ h
  simp only [sampleApi] at h
  split_ifs at h <;> simp only [Option.some.injEq] at h <;> subst h <;> simp_all

/-- Witness of C8: a process of `sampleApi`. -/
theorem walk_terminates_witness :
    CursorAdvances sampleApi 104 ∧
      ∃ vs, VisitedFrom sampleApi 104 0 vs ∧ vs.length ≤ 0x800000000000 ∧
        (∀ fuel, vs.length < fuel →
          ∃ committedSize,
            GetProcessCommittedMemorySize sampleApi 104 fuel = some committedSize) ∧
        (NoAddressOverflow vs → ∀ fuel, 2 ^ 52 < fuel →
          ∃ r, GetProcessCommittedMemorySizeShared sampleApi 104 fuel = some r) :=
  ⟨sampleApi_advances, walk_terminates sampleApi 104 sampleApi_advances⟩

/-- C8 as stated fails on `emptyRegionApi`: the first region reported has size
0, the walk does not stop there, and neither function returns for any fuel. -/
theorem walk_loops_on_empty_region :
    emptyRegionApi.VirtualQueryEx 104 0 = some ⟨0, 0, MEM_FREE, 0⟩ ∧
      (¬ ∃ fuel committedSize,
        GetProcessCommittedMemorySize emptyRegionApi 104 fuel = some committedSize) ∧
      ¬ ∃ fuel r, GetProcessCommittedMemorySizeShared emptyRegionApi 104 fuel = some r := by
  refine ⟨rfl, ?_, ?_⟩
  · rintro ⟨fuel, committedSize, h⟩
    unfold GetProcessCommittedMemorySize at h
    rw [emptyRegionApi_loop] at h
    simp at h
  · rintro ⟨fuel, r, h⟩
    unfold GetProcessCommittedMemorySizeShared at h
    rw [emptyRegionApi_sharedLoop] at h
    simp at h

/-- C9, amended: for every region-query oracle whose walk visits a finite
sequence of regions, each of a size that is a multiple of 4096, every address
that `GetProcessCommittedMemorySizeShared` puts in the candidate page list
handed to the page-share query is a multiple of 4096 and satisfies
`base ≤ a < base + size` for some visited region whose state is `MEM_COMMIT`,
`base` being the cursor at which the region was queried. -/
theorem candidate_pages_aligned (os : WinApi) (hProcess : Nat)
    (vs : List (Nat × MEMORY_BASIC_INFORMATION)) (fuel : Nat)
    (hv : VisitedFrom os hProcess 0 vs)
    (hm : ∀ x ∈ vs, 4096 ∣ x.2.RegionSize) (hf : EnoughFuel vs fuel) :
    ∃ PrivateCommittedSize WorkingSetExInformationList,
      sharedSizeLoop os hProcess fuel fuel 0 0 [] =
        some (PrivateCommittedSize, WorkingSetExInformationList) ∧
      GetProcessCommittedMemorySizeShared os hProcess fuel =
        (match os.QueryWorkingSetEx hProcess WorkingSetExInformationList
            (bufferBytes WorkingSetExInformationList) with
        | .error errorCode => some (.error errorCode)
        | .ok attributes =>
          some (.ok ((fillAttributes attributes 0 WorkingSetExInformationList).foldl
            accountPage (PrivateCommittedSize, 0)))) ∧
      ∀ i ∈ WorkingSetExInformationList, 4096 ∣ i.VirtualAddress ∧
        ∃ x ∈ vs, x.2.State = MEM_COMMIT ∧ x.1 ≤ i.VirtualAddress ∧
          i.VirtualAddress < x.1 + x.2.RegionSize := by
  obtain ⟨total, added, hloop, hadded⟩ :=
    sharedSizeLoop_aligned fuel hv hm (Nat.dvd_zero _) hf.2 fuel 0 [] hf.1
  rw [List.nil_append] at hloop
  refine ⟨total, added, hloop, ?_, hadded⟩
  unfold GetProcessCommittedMemorySizeShared
  rw [hloop]

/-- Witness of C9: the four regions of a process of `sampleApi`, and the two
regions of a process of `wrappingApi`, whose cursor wraps around `2 ^ 64`. -/
theorem candidate_pages_aligned_witness :
    ((VisitedFrom sampleApi 104 0 sampleRegions ∧
        (∀ x ∈ sampleRegions, 4096 ∣ x.2.RegionSize) ∧ EnoughFuel sampleRegions 17) ∧
      ∃ PrivateCommittedSize WorkingSetExInformationList,
        sharedSizeLoop sampleApi 104 17 17 0 0 [] =
          some (PrivateCommittedSize, WorkingSetExInformationList) ∧
        GetProcessCommittedMemorySizeShared sampleApi 104 17 =
          (match sampleApi.QueryWorkingSetEx 104 WorkingSetExInformationList
              (bufferBytes WorkingSetExInformationList) with
          | .error errorCode => some (.error errorCode)
          | .ok attributes =>
            some (.ok ((fillAttributes attributes 0 WorkingSetExInformationList).foldl
              accountPage (PrivateCommittedSize, 0)))) ∧
        ∀ i ∈ WorkingSetExInformationList, 4096 ∣ i.VirtualAddress ∧
          ∃ x ∈ sampleRegions, x.2.State = MEM_COMMIT ∧ x.1 ≤ i.VirtualAddress ∧
            i.VirtualAddress < x.1 + x.2.RegionSize) ∧
      ((VisitedFrom wrappingApi 104 0 wrappingRegions ∧
        (∀ x ∈ wrappingRegions, 4096 ∣ x.2.RegionSize) ∧ EnoughFuel wrappingRegions 4503599627370497) ∧
      ∃ PrivateCommittedSize WorkingSetExInformationList,
        sharedSizeLoop wrappingApi 104 4503599627370497 4503599627370497 0 0 [] =
          some (PrivateCommittedSize, WorkingSetExInformationList) ∧
        GetProcessCommittedMemorySizeShared wrappingApi 104 4503599627370497 =
          (match wrappingApi.QueryWorkingSetEx 104 WorkingSetExInformationList
              (bufferBytes WorkingSetExInformationList) with
          | .error errorCode => some (.error errorCode)
          | .ok attributes =>
            some (.ok ((fillAttributes attributes 0 WorkingSetExInformationList).foldl
              accountPage (PrivateCommittedSize, 0)))) ∧
        ∀ i ∈ WorkingSetExInformationList, 4096 ∣ i.VirtualAddress ∧
          ∃ x ∈ wrappingRegions, x.2.State = MEM_COMMIT ∧ x.1 ≤ i.VirtualAddress ∧
            i.VirtualAddress < x.1 + x.2.RegionSize) :=
  ⟨⟨⟨by decide, by decide, by unfold EnoughFuel; decide⟩,
      candidate_pages_aligned sampleApi 104 sampleRegions 17 (by decide) (by decide)
        (by unfold EnoughFuel; decide)⟩,
    ⟨⟨by decide, by decide, by unfold EnoughFuel; decide⟩,
      candidate_pages_aligned wrappingApi 104 wrappingRegions 4503599627370497
        (by decide) (by decide)
        (by unfold EnoughFuel; decide)⟩⟩

/-- C9 as stated fails on `unalignedApi`: the regions are 100 bytes long, and
the candidate page list is 0, 100, whose second address is not a multiple of
4096. -/
theorem candidate_page_unaligned :
    unalignedApi.VirtualQueryEx 104 0 = some ⟨0, 100, MEM_COMMIT, 0x40000⟩ ∧
      unalignedApi.VirtualQueryEx 104 100 = some ⟨100, 100, MEM_COMMIT, 0x40000⟩ ∧
      unalignedApi.VirtualQueryEx 104 200 = none ∧
      sharedSizeLoop unalignedApi 104 3 3 0 0 [] =
        some (0, [⟨0, ⟨false, 0, false⟩⟩, ⟨100, ⟨false, 0, false⟩⟩]) ∧
      ¬ 4096 ∣ 100 := by
  refine ⟨rfl, rfl, rfl, by decide, by decide⟩

/-- C10: when both walks observe the same finite region sequence, the
page-share query succeeds and no 64-bit sum overflows (neither an address
computation nor one of the two totals), `committedPrivate + committedShared` =
(sum of the sizes of committed private-type regions) + 4096 * (sum over the
committed regions that are not of private type of `ceil (size / 4096)`); hence
`committedPrivate + committedShared ≥ committedTotal`, with equality if and
only if the size of every committed region that is not of private type is a
multiple of 4096. -/
theorem committed_private_plus_shared (os : WinApi) (hProcess : Nat)
    (vs : List (Nat × MEMORY_BASIC_INFORMATION)) (fuel : Nat)
    (attributes : Nat → PSAPI_WORKING_SET_EX_BLOCK)
    (hv : VisitedFrom os hProcess 0 vs) (hr : NoAddressOverflow vs) (hf : EnoughFuel vs fuel)
    (hok : os.QueryWorkingSetEx hProcess (newEntries (candidatePages vs))
      (bufferBytes (newEntries (candidatePages vs))) = .ok attributes)
    (hprivate : privateRegionBytes vs + 4096 *
      (fillAttributes attributes 0 (newEntries (candidatePages vs))).countP
        (fun i => !classifiedShared i) < 2 ^ 64)
    (hshared : 4096 *
      (fillAttributes attributes 0 (newEntries (candidatePages vs))).countP
        classifiedShared < 2 ^ 64) :
    ∃ committedTotal committedPrivate committedShared,
      GetProcessCommittedMemorySize os hProcess fuel = some committedTotal ∧
      GetProcessCommittedMemorySizeShared os hProcess fuel =
        some (.ok (committedPrivate, committedShared)) ∧
      committedPrivate + committedShared =
        ((vs.filter (fun x => x.2.State = MEM_COMMIT ∧ x.2.Type_ = MEM_PRIVATE)).map
            (fun x => x.2.RegionSize)).sum +
          4096 * ((vs.filter (fun x => x.2.State = MEM_COMMIT ∧ x.2.Type_ ≠ MEM_PRIVATE)).map
            (fun x => (x.2.RegionSize + 4095) / 4096)).sum ∧
      committedTotal ≤ committedPrivate + committedShared ∧
      (committedPrivate + committedShared = committedTotal ↔
        ∀ x ∈ vs, x.2.State = MEM_COMMIT → x.2.Type_ ≠ MEM_PRIVATE →
          4096 ∣ x.2.RegionSize) := by
  obtain ⟨-, hres⟩ := GetProcessCommittedMemorySizeShared_eq hv hr fuel hf
  rw [hok] at hres
  have htotal := committedSizeLoop_eq hv fuel 0 hf.1 (by norm_num)
  have hlt := committedBytes_lt hv (fun z hz => (hr z hz).1) (by norm_num)
  rw [Nat.zero_add] at htotal hlt
  rw [Nat.mod_eq_of_lt hlt] at htotal
  simp only at hres
  rw [Nat.mod_eq_of_lt hprivate, Nat.mod_eq_of_lt hshared] at hres
  have hcount := countP_classified (fillAttributes attributes 0 (newEntries (candidatePages vs)))
  have hlen : (fillAttributes attributes 0 (newEntries (candidatePages vs))).length =
      sharedCapablePages vs := by
    rw [fillAttributes_length]
    unfold newEntries
    rw [List.length_map, candidatePages_length]
  rw [hlen] at hcount
  obtain ⟨hle, heq⟩ := committedBytes_le vs
  refine ⟨_, _, _, htotal, hres, ?_, ?_, ?_⟩
  · show _ = privateRegionBytes vs + 4096 * sharedCapablePages vs
    rw [← hcount]
    omega
  · rw [← hcount] at hle
    omega
  · rw [← heq, ← hcount]
    constructor <;> intro h <;> omega

/-- Witness of C10: the four regions of a process of `sampleApi`. -/
theorem committed_private_plus_shared_witness :
    (VisitedFrom sampleApi 104 0 sampleRegions ∧ NoAddressOverflow sampleRegions ∧
      EnoughFuel sampleRegions 17) ∧
      ∃ committedTotal committedPrivate committedShared,
        GetProcessCommittedMemorySize sampleApi 104 17 = some committedTotal ∧
        GetProcessCommittedMemorySizeShared sampleApi 104 17 =
          some (.ok (committedPrivate, committedShared)) ∧
        committedPrivate + committedShared =
          ((sampleRegions.filter
              (fun x => x.2.State = MEM_COMMIT ∧ x.2.Type_ = MEM_PRIVATE)).map
              (fun x => x.2.RegionSize)).sum +
            4096 * ((sampleRegions.filter
              (fun x => x.2.State = MEM_COMMIT ∧ x.2.Type_ ≠ MEM_PRIVATE)).map
              (fun x => (x.2.RegionSize + 4095) / 4096)).sum ∧
        committedTotal ≤ committedPrivate + committedShared ∧
        (committedPrivate + committedShared = committedTotal ↔
          ∀ x ∈ sampleRegions, x.2.State = MEM_COMMIT → x.2.Type_ ≠ MEM_PRIVATE →
            4096 ∣ x.2.RegionSize) :=
  ⟨⟨by decide, by unfold NoAddressOverflow; decide, by unfold EnoughFuel; decide⟩,
    committed_private_plus_shared sampleApi 104 sampleRegions 17
      (fun k => if k = 0 then ⟨true, 2, true⟩ else ⟨true, 0, true⟩) (by decide)
      (by unfold NoAddressOverflow; decide) (by unfold EnoughFuel; decide) rfl
      (by decide) (by decide)⟩

end CommittedMemoryQueryWin
